import Mathlib

/-!
Shallow embedding of the airport-simulation kernel
(`src/models/resources.py`, `src/models/passenger.py`,
`src/utils/distributions.py`, `src/simulation/arrival.py`,
`src/simulation/processes.py`, `src/simulation/engine.py`).

Times, probabilities and durations are rationals.  All random draws made by
the Python code are threaded explicitly as input streams `ℕ → ℚ`:
* `py` models Python's stdlib `random` module (unit-interval draws), the
  ambient global generator used by `PassengerGroupFactory.create_group`;
* `tDraws` models `scipy.stats.t(...).rvs` candidate draws;
* `uFracs` models the unit fractions behind `np.random.uniform(lo, hi)`
  (`np.random.uniform(lo, hi) = lo + (hi - lo) * u` with `0 ≤ u < 1`);
* per-group `ServiceDraws` model the raw `np.random.normal(mean, std)` draws.
-/

namespace AirportSim

/-- `QueueSnapshot` of `src/models/resources.py`: one instrumentation record
appended to a station's `queue_history`. -/
structure QueueSnapshot where
  time : ℚ
  queue_length : ℕ
  queue_pax_count : ℕ
  in_service : ℕ
deriving Repr, DecidableEq

/-- Sum of `group_size` over a list of `(group_id, group_size)` pairs. -/
def sizeSum (l : List (ℕ × ℕ)) : ℕ := (l.map Prod.snd).sum

/-- State of one `MonitoredResource` together with the underlying
`simpy.Resource`: `users` are the in-service requests (grant order),
`queue` the pending (not yet granted) requests in arrival order,
`current` mirrors the Python `_current_queue` list (appended on `request`,
filtered by group id on `release`).  `requestLog`/`grantLog` are ghost logs
of the order in which groups requested and were granted. -/
structure RState where
  capacity : ℕ
  users : List (ℕ × ℕ)
  queue : List (ℕ × ℕ)
  current : List (ℕ × ℕ)
  history : List QueueSnapshot
  requestLog : List ℕ
  grantLog : List ℕ
deriving Repr, DecidableEq

/-- A fresh `MonitoredResource` of the given capacity. -/
def initR (cap : ℕ) : RState :=
  ⟨cap, [], [], [], [], [], []⟩

/-- `MonitoredResource._record_snapshot`: `queue_length` is
`len(self.resource.queue)`, `queue_pax_count` is the sum of `group_size`
over the first `queue_length` entries of `_current_queue` (0 when the queue
is empty), `in_service` is `self.resource.count`. -/
def recordSnapshot (t : ℚ) (s : RState) : RState :=
  { s with history := s.history ++
      [⟨t, s.queue.length,
        if 0 < s.queue.length then sizeSum (s.current.take s.queue.length) else 0,
        s.users.length⟩] }

/-- `simpy.Resource` grant step (`_trigger_put`): repeatedly move the head of
the pending queue into the user set while capacity remains. -/
def triggerAux (cap : ℕ) :
    List (ℕ × ℕ) → List (ℕ × ℕ) → List ℕ → List (ℕ × ℕ) × List (ℕ × ℕ) × List ℕ
  | users, [], glog => (users, [], glog)
  | users, q :: rest, glog =>
    if users.length < cap then
      triggerAux cap (users ++ [q]) rest (glog ++ [q.1])
    else (users, q :: rest, glog)

/-- Apply the grant step to a resource state. -/
def triggerPut (s : RState) : RState :=
  let r := triggerAux s.capacity s.users s.queue s.grantLog
  { s with users := r.1, queue := r.2.1, grantLog := r.2.2 }

/-- One operation on a monitored resource, tagged with its virtual time. -/
inductive ROp where
  | request (time : ℚ) (gid gsize : ℕ)
  | release (time : ℚ) (gid : ℕ)
deriving Repr, DecidableEq

/-- `MonitoredResource.request`: append to `_current_queue`, record a
snapshot, then create the `simpy` request (which enqueues it and immediately
grants pending requests FIFO while capacity remains). -/
def doRequest (t : ℚ) (g sz : ℕ) (s : RState) : RState :=
  let s1 := { s with current := s.current ++ [(g, sz)] }
  let s2 := recordSnapshot t s1
  let s3 := { s2 with queue := s2.queue ++ [(g, sz)],
                      requestLog := s2.requestLog ++ [g] }
  triggerPut s3

/-- `MonitoredResource.release`: drop the group from `_current_queue`,
release the `simpy` request (removing it from the user set), record a
snapshot; the released slot is then granted to the queue head (FIFO). -/
def doRelease (t : ℚ) (g : ℕ) (s : RState) : RState :=
  let s1 := { s with current := s.current.filter (fun p => p.1 ≠ g),
                     users := s.users.filter (fun p => p.1 ≠ g) }
  let s2 := recordSnapshot t s1
  triggerPut s2

/-- Apply one operation. -/
def applyOp (s : RState) : ROp → RState
  | .request t g sz => doRequest t g sz s
  | .release t g => doRelease t g s

/-- Run a list of operations against a resource. -/
def runOps (s : RState) (ops : List ROp) : RState :=
  ops.foldl applyOp s

/-- Well-formed operation sequences: a group requests at most once while it
is tracked, and only in-service groups release (`simpy` raises otherwise). -/
def validOps (s : RState) : List ROp → Bool
  | [] => true
  | .request t g sz :: rest =>
    s.current.all (fun p => p.1 ≠ g) && validOps (doRequest t g sz s) rest
  | .release t g :: rest =>
    s.users.any (fun p => p.1 = g) && validOps (doRelease t g s) rest

/-- `CheckinType` of `src/models/passenger.py`. -/
inductive CheckinType where
  | online
  | kiosk
  | counter
deriving Repr, DecidableEq

/-- `BaggageDropType` of `src/models/passenger.py`. -/
inductive BaggageDropType where
  | none
  | counter
  | self
deriving Repr, DecidableEq

/-- `PassengerGroup` of `src/models/passenger.py` (the fields the kernel
reads and writes; the per-passenger objects and x/y coordinates are
visualization payload, out of the kernel's scope). -/
structure PassengerGroup where
  group_id : ℕ
  group_size : ℕ
  arrival_time : ℚ
  departure_time : ℚ
  checkin_type : CheckinType
  has_baggage : Bool
  baggage_drop_type : BaggageDropType
  checkin_queue_enter : Option ℚ := Option.none
  checkin_start : Option ℚ := Option.none
  checkin_end : Option ℚ := Option.none
  baggage_counter_queue_enter : Option ℚ := Option.none
  baggage_counter_start : Option ℚ := Option.none
  baggage_counter_end : Option ℚ := Option.none
  tag_queue_enter : Option ℚ := Option.none
  tag_start : Option ℚ := Option.none
  tag_end : Option ℚ := Option.none
  drop_queue_enter : Option ℚ := Option.none
  drop_start : Option ℚ := Option.none
  drop_end : Option ℚ := Option.none
  security_arrival : Option ℚ := Option.none
deriving Repr, DecidableEq

/-- `PassengerGroupFactory` after `__init__`: check-in probabilities are
stored normalized; the remaining parameters are stored as given. -/
structure Factory where
  p_online : ℚ
  p_kiosk : ℚ
  p_counter : ℚ
  p_baggage : ℚ
  p_baggage_counter : ℚ
  p_single : ℚ
  multi_min : ℕ
  multi_max : ℕ
deriving Repr, DecidableEq

/-- `PassengerGroupFactory.__init__`: divides the three check-in
probabilities by their total; in Python this raises `ZeroDivisionError` when
the total is `0` (modelled as `none`).  No other validation is performed. -/
def PassengerGroupFactory_init (p_online p_kiosk p_counter p_baggage
    p_baggage_counter p_single : ℚ) (multi_min multi_max : ℕ) :
    Option Factory :=
  let total := p_online + p_kiosk + p_counter
  if total = 0 then Option.none
  else Option.some
    ⟨p_online / total, p_kiosk / total, p_counter / total,
     p_baggage, p_baggage_counter, p_single, multi_min, multi_max⟩

/-- `random.randint(a, b)`: a uniformly chosen integer in `[a, b]`, modelled
as `a + ⌊u * (b - a + 1)⌋` for the generator's next unit draw `u`. -/
def randintModel (u : ℚ) (a b : ℕ) : ℕ :=
  a + (Rat.floor (u * ((b : ℚ) - (a : ℚ) + 1))).toNat

/-- `PassengerGroupFactory.create_group`.  `py` is the stream of Python's
global `random` module (which `SimulationEngine.run` never seeds) and `cur`
the position of its next draw; the group id is threaded by the caller
(`self._next_group_id`).  Returns the group and the new stream position.
Draw order follows the source: group size (one or two draws), check-in type,
baggage flag, and — only when there is baggage — the drop-type draw. -/
def create_group (f : Factory) (py : ℕ → ℚ) (cur : ℕ) (gid : ℕ)
    (arrival departure : ℚ) : PassengerGroup × ℕ :=
  let szc : ℕ × ℕ :=
    if py cur < f.p_single then (1, cur + 1)
    else (randintModel (py (cur + 1)) f.multi_min f.multi_max, cur + 2)
  let gsize := szc.1
  let c1 := szc.2
  let r := py c1
  let ctype : CheckinType :=
    if r < f.p_online then .online
    else if r < f.p_online + f.p_kiosk then .kiosk
    else .counter
  let hb : Bool := py (c1 + 1) < f.p_baggage
  let btc : BaggageDropType × ℕ :=
    if hb then
      (if py (c1 + 2) < f.p_baggage_counter then (.counter, c1 + 3)
       else (.self, c1 + 3))
    else (.none, c1 + 2)
  ({ group_id := gid, group_size := gsize, arrival_time := arrival,
     departure_time := departure, checkin_type := ctype, has_baggage := hb,
     baggage_drop_type := btc.1 }, btc.2)

/-- `TruncatedTDistribution` parameters (`src/utils/distributions.py`). -/
structure TruncatedTDistribution where
  df : ℚ
  loc : ℚ
  scale : ℚ
  lower : ℚ
  upper : ℚ
deriving Repr, DecidableEq

/-- The rejection loop of `TruncatedTDistribution.sample`: while fewer than
`size` samples are accepted and `attempts < maxA`, draw a batch of
`(size - len(samples)) * 2` candidates from the t-distribution stream, keep
those inside `[lower, upper]`, and add the batch size to `attempts`.  The
structural `fuel` is only a recursion bound: each iteration adds at least 2
to `attempts`, so `fuel = maxA` never runs out before the guard fails. -/
def sampleLoop (lower upper : ℚ) (tDraws : ℕ → ℚ) (size maxA : ℕ) :
    ℕ → List ℚ → ℕ → ℕ → List ℚ × ℕ
  | 0, acc, _, tcur => (acc, tcur)
  | fuel + 1, acc, attempts, tcur =>
    if acc.length < size ∧ attempts < maxA then
      let batch := (size - acc.length) * 2
      let cands := (List.range batch).map (fun i => tDraws (tcur + i))
      let accepted := cands.filter (fun c => decide (lower ≤ c ∧ c ≤ upper))
      sampleLoop lower upper tDraws size maxA fuel (acc ++ accepted)
        (attempts + batch) (tcur + batch)
    else (acc, tcur)

/-- `TruncatedTDistribution.sample(size)`: rejection sampling with attempt
budget `size * 100`; if the budget is exhausted short of `size` accepted
samples, the remainder is filled with `np.random.uniform(lower, upper)`
draws; finally the first `size` samples are returned.  Returns the samples
and the new positions in the two numpy streams. -/
def TruncatedTDistribution_sample (d : TruncatedTDistribution)
    (tDraws uFracs : ℕ → ℚ) (tcur ucur : ℕ) (size : ℕ) :
    List ℚ × ℕ × ℕ :=
  let maxA := size * 100
  let r := sampleLoop d.lower d.upper tDraws size maxA maxA [] 0 tcur
  let samples := r.1
  if samples.length < size then
    let remaining := size - samples.length
    let uniform := (List.range remaining).map
      (fun i => d.lower + (d.upper - d.lower) * uFracs (ucur + i))
    ((samples ++ uniform).take size, r.2, ucur + remaining)
  else (samples.take size, r.2, ucur)

/-- `TruncatedTDistribution.sample_one`: first entry of `sample(1)`. -/
def TruncatedTDistribution_sample_one (d : TruncatedTDistribution)
    (tDraws uFracs : ℕ → ℚ) (tcur ucur : ℕ) : ℚ × ℕ × ℕ :=
  let r := TruncatedTDistribution_sample d tDraws uFracs tcur ucur 1
  (r.1.headD 0, r.2)

/-- `ServiceTimeDistribution`: normal distribution floored at `min_time`
(default `1.0`). -/
structure ServiceTimeDistribution where
  mean : ℚ
  std : ℚ
  min_time : ℚ := 1
deriving Repr, DecidableEq

/-- `ServiceTimeDistribution.sample_one`: the raw normal draw (threaded as
input) clamped up to `min_time` (`np.maximum(samples, self.min_time)`). -/
def ServiceTimeDistribution_sample_one (d : ServiceTimeDistribution)
    (draw : ℚ) : ℚ :=
  max draw d.min_time

/-- `DemandSlot` of `src/simulation/arrival.py`. -/
structure DemandSlot where
  start_minutes : ℚ
  end_minutes : ℚ
  pax_count : ℤ
deriving Repr, DecidableEq

/-- Cursors threaded through arrival generation: positions in the Python
`random` stream and the two numpy streams, plus the factory's
`_next_group_id` counter. -/
structure GenState where
  pycur : ℕ
  tcur : ℕ
  ucur : ℕ
  gid : ℕ
deriving Repr, DecidableEq

/-- One iteration of the `generate_arrivals_for_slot` loop: fix the
departure to the slot midpoint, sample the minutes-before-departure from
the truncated t-distribution, clamp the arrival at 0, convert both to
seconds and create the group.  Returns the group and the advanced
cursors. -/
def slotStep (f : Factory) (ad : TruncatedTDistribution)
    (py tDraws uFracs : ℕ → ℚ) (slot : DemandSlot) (st : GenState) :
    PassengerGroup × GenState :=
  let departure_time_min := (slot.start_minutes + slot.end_minutes) / 2
  let smp := TruncatedTDistribution_sample_one ad tDraws uFracs st.tcur st.ucur
  let arrival_time_min := max 0 (departure_time_min - smp.1)
  let gc := create_group f py st.pycur st.gid
    (arrival_time_min * 60) (departure_time_min * 60)
  (gc.1, ⟨gc.2, smp.2.1, smp.2.2, st.gid + 1⟩)

/-- Loop of `ArrivalGenerator.generate_arrivals_for_slot`: while
`remaining_pax > 0`, create a group with `slotStep` and subtract its size
from `remaining_pax`.  `fuel` bounds the recursion; with every group size
at least 1 (the regime of the spec's claims) `fuel = pax_count.toNat` is
never exhausted before `remaining ≤ 0` — a degenerate size of 0 would loop
forever in Python. -/
def generate_arrivals_for_slot_aux (f : Factory) (ad : TruncatedTDistribution)
    (py tDraws uFracs : ℕ → ℚ) (slot : DemandSlot) :
    ℕ → ℤ → GenState → List PassengerGroup × GenState
  | 0, _, st => ([], st)
  | fuel + 1, remaining, st =>
    if remaining ≤ 0 then ([], st)
    else
      let gs := slotStep f ad py tDraws uFracs slot st
      let rest := generate_arrivals_for_slot_aux f ad py tDraws uFracs slot
        fuel (remaining - (gs.1.group_size : ℤ)) gs.2
      (gs.1 :: rest.1, rest.2)

/-- `ArrivalGenerator.generate_arrivals_for_slot`. -/
def generate_arrivals_for_slot (f : Factory) (ad : TruncatedTDistribution)
    (py tDraws uFracs : ℕ → ℚ) (slot : DemandSlot) (st : GenState) :
    List PassengerGroup × GenState :=
  generate_arrivals_for_slot_aux f ad py tDraws uFracs slot
    slot.pax_count.toNat slot.pax_count st

/-- Stable insertion of `e` behind all entries whose key is `≤ key e`. -/
def insertByKey {α : Type} (key : α → ℚ) (e : α) : List α → List α
  | [] => [e]
  | x :: xs => if key x ≤ key e then x :: insertByKey key e xs else e :: x :: xs

/-- Stable sort by a rational key (Python's `list.sort` is stable: ties keep
generation order). -/
def sortByKey {α : Type} (key : α → ℚ) (l : List α) : List α :=
  l.foldl (fun acc e => insertByKey key e acc) []

/-- `ArrivalGenerator.generate_all_arrivals`: slots with
`pax_count > 0` contribute their generated groups, everything else is
skipped; the concatenation is sorted by `arrival_time`. -/
def generate_all_arrivals (f : Factory) (ad : TruncatedTDistribution)
    (py tDraws uFracs : ℕ → ℚ) (slots : List DemandSlot) (st : GenState) :
    List PassengerGroup × GenState :=
  let r := slots.foldl
    (fun (acc : List PassengerGroup × GenState) slot =>
      if 0 < slot.pax_count then
        let g := generate_arrivals_for_slot f ad py tDraws uFracs slot acc.2
        (acc.1 ++ g.1, g.2)
      else acc)
    ([], st)
  (sortByKey (fun g => g.arrival_time) r.1, r.2)

/-- An `enter_area`/`leave_area` call (`AirportResources`). -/
inductive AEvent where
  | enter (zone : String) (gid gsize : ℕ)
  | leave (zone : String) (gid : ℕ)
deriving Repr, DecidableEq

/-- An area call stamped with the virtual time at which the process makes
it. -/
structure TimedEvent where
  time : ℚ
  ev : AEvent
deriving Repr, DecidableEq

/-- Scheduler-determined grant delays of one group at its (up to four)
station visits: the gap between `resource.request` and the grant.  In the
real engine these arise from contention; the embedding threads them as
inputs, non-negative because the virtual clock never runs backwards. -/
structure StageWaits where
  checkin : ℚ
  baggage : ℚ
  tag : ℚ
  drop : ℚ
deriving Repr, DecidableEq

/-- Raw `np.random.normal(mean, std)` draws behind the service-time samples
of one group's station visits. -/
structure ServiceDraws where
  checkin : ℚ
  baggage : ℚ
  tag : ℚ
  drop : ℚ
deriving Repr, DecidableEq

/-- The five `ServiceTimeDistribution`s built by
`SimulationEngine._create_service_times`. -/
structure ServiceTimes where
  checkin_kiosk : ServiceTimeDistribution
  checkin_counter : ServiceTimeDistribution
  baggage_counter : ServiceTimeDistribution
  tag_kiosk : ServiceTimeDistribution
  drop_point : ServiceTimeDistribution
deriving Repr, DecidableEq

/-- `PassengerProcess.run`: the per-group state machine.  Starting at the
group's arrival time it performs check-in (online: a fixed 5-second delay,
no timestamps; kiosk/counter: enter the check-in zone, record
`queue_enter`, wait for the grant, record `start`, hold for the sampled
service time, record `end`, release and leave the zone), then baggage
handling (combined counter, or tag kiosk followed by drop point, or
nothing), then the security-front transit of 10 seconds, recording
`security_arrival`.  Returns the updated group record, the timed
`enter_area`/`leave_area` calls it makes, and its completion time. -/
def PassengerProcess_run (st : ServiceTimes) (grp : PassengerGroup)
    (w : StageWaits) (d : ServiceDraws) :
    PassengerGroup × List TimedEvent × ℚ :=
  let t0 := grp.arrival_time
  let step1 : PassengerGroup × List TimedEvent × ℚ :=
    match grp.checkin_type with
    | .online => (grp, [], t0 + 5)
    | .kiosk =>
      let cs := t0 + w.checkin
      let ce := cs + ServiceTimeDistribution_sample_one st.checkin_kiosk d.checkin
      ({ grp with checkin_queue_enter := Option.some t0,
                  checkin_start := Option.some cs,
                  checkin_end := Option.some ce },
       [⟨t0, .enter "checkin_zone" grp.group_id grp.group_size⟩,
        ⟨ce, .leave "checkin_zone" grp.group_id⟩], ce)
    | .counter =>
      let cs := t0 + w.checkin
      let ce := cs + ServiceTimeDistribution_sample_one st.checkin_counter d.checkin
      ({ grp with checkin_queue_enter := Option.some t0,
                  checkin_start := Option.some cs,
                  checkin_end := Option.some ce },
       [⟨t0, .enter "checkin_zone" grp.group_id grp.group_size⟩,
        ⟨ce, .leave "checkin_zone" grp.group_id⟩], ce)
  let g1 := step1.1
  let ev1 := step1.2.1
  let t1 := step1.2.2
  let step2 : PassengerGroup × List TimedEvent × ℚ :=
    match g1.baggage_drop_type with
    | .none => (g1, [], t1)
    | .counter =>
      let bs := t1 + w.baggage
      let be := bs + ServiceTimeDistribution_sample_one st.baggage_counter d.baggage
      ({ g1 with baggage_counter_queue_enter := Option.some t1,
                 baggage_counter_start := Option.some bs,
                 baggage_counter_end := Option.some be },
       [⟨t1, .enter "baggage_counter_zone" g1.group_id g1.group_size⟩,
        ⟨be, .leave "baggage_counter_zone" g1.group_id⟩], be)
    | .self =>
      let ts := t1 + w.tag
      let te := ts + ServiceTimeDistribution_sample_one st.tag_kiosk d.tag
      let ds := te + w.drop
      let de := ds + ServiceTimeDistribution_sample_one st.drop_point d.drop
      ({ g1 with tag_queue_enter := Option.some t1,
                 tag_start := Option.some ts, tag_end := Option.some te,
                 drop_queue_enter := Option.some te,
                 drop_start := Option.some ds, drop_end := Option.some de },
       [⟨t1, .enter "tag_zone" g1.group_id g1.group_size⟩,
        ⟨te, .leave "tag_zone" g1.group_id⟩,
        ⟨te, .enter "drop_zone" g1.group_id g1.group_size⟩,
        ⟨de, .leave "drop_zone" g1.group_id⟩], de)
  let g2 := step2.1
  let ev2 := step2.2.1
  let t2 := step2.2.2
  let sec := t2 + 10
  ({ g2 with security_arrival := Option.some sec },
   ev1 ++ ev2 ++
     [⟨t2, .enter "security_front" g2.group_id g2.group_size⟩,
      ⟨sec, .leave "security_front" g2.group_id⟩], sec)

/-- `SimulationConfig` of `src/simulation/engine.py`: a plain dataclass,
no `__post_init__`, no validation anywhere. -/
structure SimulationConfig where
  arrival_df : ℚ := 7
  arrival_mean_min_before : ℚ := 70
  arrival_scale : ℚ := 20
  arrival_range_min : ℚ := 20
  arrival_range_max : ℚ := 120
  p_online : ℚ := 3/10
  p_kiosk : ℚ := 1/2
  p_counter : ℚ := 1/5
  p_baggage : ℚ := 1/2
  p_baggage_counter : ℚ := 2/5
  p_single : ℚ := 7/10
  group_multi_min : ℕ := 2
  group_multi_max : ℕ := 4
  capacity_checkin_kiosk : ℤ := 8
  capacity_checkin_counter : ℤ := 6
  capacity_baggage_counter : ℤ := 4
  capacity_tag_kiosk : ℤ := 4
  capacity_drop_point : ℤ := 4
  service_checkin_kiosk_mean : ℚ := 70
  service_checkin_kiosk_std : ℚ := 15
  service_checkin_counter_mean : ℚ := 180
  service_checkin_counter_std : ℚ := 40
  service_baggage_counter_mean : ℚ := 150
  service_baggage_counter_std : ℚ := 35
  service_tag_kiosk_mean : ℚ := 45
  service_tag_kiosk_std : ℚ := 10
  service_drop_point_mean : ℚ := 120
  service_drop_point_std : ℚ := 30
  sample_interval_sec : ℚ := 10
  random_seed : Option ℤ := Option.none

/-- The all-defaults configuration. -/
def defaultConfig : SimulationConfig := {}

/-- `SimulationEngine._create_service_times` (each distribution keeps the
default `min_time = 1.0`). -/
def create_service_times (cfg : SimulationConfig) : ServiceTimes :=
  ⟨⟨cfg.service_checkin_kiosk_mean, cfg.service_checkin_kiosk_std, 1⟩,
   ⟨cfg.service_checkin_counter_mean, cfg.service_checkin_counter_std, 1⟩,
   ⟨cfg.service_baggage_counter_mean, cfg.service_baggage_counter_std, 1⟩,
   ⟨cfg.service_tag_kiosk_mean, cfg.service_tag_kiosk_std, 1⟩,
   ⟨cfg.service_drop_point_mean, cfg.service_drop_point_std, 1⟩⟩

/-- `AreaOccupancy` record of `src/models/resources.py`. -/
structure AreaOccupancy where
  time : ℚ
  area_name : String
  group_count : ℕ
  pax_count : ℕ
deriving Repr, DecidableEq

/-- The five zone keys of `AirportResources._groups_in_area`. -/
def zoneNames : List String :=
  ["checkin_zone", "baggage_counter_zone", "tag_zone", "drop_zone",
   "security_front"]

/-- Membership lists per zone, mirroring `_groups_in_area`. -/
def initAreaState : List (String × List (ℕ × ℕ)) :=
  zoneNames.map (fun z => (z, []))

/-- Current members of a zone. -/
def getZone (m : List (String × List (ℕ × ℕ))) (z : String) : List (ℕ × ℕ) :=
  ((m.find? (fun p => p.1 == z)).map Prod.snd).getD []

/-- Replace a zone's member list. -/
def setZone (m : List (String × List (ℕ × ℕ))) (z : String)
    (v : List (ℕ × ℕ)) : List (String × List (ℕ × ℕ)) :=
  m.map (fun p => if p.1 == z then (p.1, v) else p)

/-- `AirportResources.enter_area` / `leave_area` followed by
`_record_area_occupancy`: update the membership list (append on enter,
filter by group id on leave) and append a snapshot of its new length and
pax sum.  Calls naming an unknown zone are ignored (the `in` guard). -/
def applyAreaEvent (acc : List (String × List (ℕ × ℕ)) × List AreaOccupancy)
    (e : TimedEvent) : List (String × List (ℕ × ℕ)) × List AreaOccupancy :=
  match e.ev with
  | .enter z gid gs =>
    if acc.1.any (fun p => p.1 == z) then
      let mem := getZone acc.1 z ++ [(gid, gs)]
      (setZone acc.1 z mem,
       acc.2 ++ [⟨e.time, z, mem.length, sizeSum mem⟩])
    else acc
  | .leave z gid =>
    if acc.1.any (fun p => p.1 == z) then
      let mem := (getZone acc.1 z).filter (fun p => p.1 ≠ gid)
      (setZone acc.1 z mem,
       acc.2 ++ [⟨e.time, z, mem.length, sizeSum mem⟩])
    else acc

/-- `area_occupancy_history` produced by a sequence of area calls executed
in time order. -/
def areaHistory (events : List TimedEvent) : List AreaOccupancy :=
  (events.foldl applyAreaEvent (initAreaState, [])).2

/-- Run every generated group's process. -/
def processedGroups (st : ServiceTimes) (waits : ℕ → StageWaits)
    (draws : ℕ → ServiceDraws) (groups : List PassengerGroup) :
    List (PassengerGroup × List TimedEvent × ℚ) :=
  groups.map (fun g => PassengerProcess_run st g (waits g.group_id) (draws g.group_id))

/-- `completed_groups`: `simpy` `env.run(until=simulation_end)` executes
exactly the events scheduled strictly before the horizon, so a group is
appended to `completed_groups` iff its security-arrival event fires before
the horizon.  (The engine collects them in completion order; membership is
what the spec's claims are about.) -/
def collectCompleted (st : ServiceTimes) (waits : ℕ → StageWaits)
    (draws : ℕ → ServiceDraws) (groups : List PassengerGroup) (horizon : ℚ) :
    List PassengerGroup :=
  (processedGroups st waits draws groups).filterMap
    (fun x => if x.2.2 < horizon then Option.some x.1 else Option.none)

/-- The `enter_area`/`leave_area` calls executed during a run: every group's
calls whose virtual time lies strictly before the horizon (calls scheduled
later are silently abandoned when `env.run(until=...)` stops). -/
def runAreaEvents (st : ServiceTimes) (waits : ℕ → StageWaits)
    (draws : ℕ → ServiceDraws) (groups : List PassengerGroup) (horizon : ℚ) :
    List TimedEvent :=
  (((processedGroups st waits draws groups).map (fun x => x.2.1)).flatten).filter
    (fun e => decide (e.time < horizon))

/-- `max(g.departure_time for g in groups)` (only evaluated on a non-empty
list in the engine). -/
def lastDeparture (groups : List PassengerGroup) : ℚ :=
  match groups.map (fun g => g.departure_time) with
  | [] => 0
  | x :: xs => xs.foldl max x

/-- The `MonitoredResource.request`/`release` calls a processed group makes
at one station, with their times. -/
def groupOpsFor (res : String) (g : PassengerGroup) : List ROp :=
  if res = "checkin_kiosk" ∧ g.checkin_type = CheckinType.kiosk then
    [.request (g.checkin_queue_enter.getD 0) g.group_id g.group_size,
     .release (g.checkin_end.getD 0) g.group_id]
  else if res = "checkin_counter" ∧ g.checkin_type = CheckinType.counter then
    [.request (g.checkin_queue_enter.getD 0) g.group_id g.group_size,
     .release (g.checkin_end.getD 0) g.group_id]
  else if res = "baggage_counter" ∧ g.baggage_drop_type = BaggageDropType.counter then
    [.request (g.baggage_counter_queue_enter.getD 0) g.group_id g.group_size,
     .release (g.baggage_counter_end.getD 0) g.group_id]
  else if res = "tag_kiosk" ∧ g.baggage_drop_type = BaggageDropType.self then
    [.request (g.tag_queue_enter.getD 0) g.group_id g.group_size,
     .release (g.tag_end.getD 0) g.group_id]
  else if res = "drop_point" ∧ g.baggage_drop_type = BaggageDropType.self then
    [.request (g.drop_queue_enter.getD 0) g.group_id g.group_size,
     .release (g.drop_end.getD 0) g.group_id]
  else []

/-- Time of an operation. -/
def ROp.time : ROp → ℚ
  | .request t _ _ => t
  | .release t _ => t

/-- The station names of `AirportResources.get_all_resources` with their
configured capacities. -/
def stationCapacities (cfg : SimulationConfig) : List (String × ℤ) :=
  [("checkin_kiosk", cfg.capacity_checkin_kiosk),
   ("checkin_counter", cfg.capacity_checkin_counter),
   ("baggage_counter", cfg.capacity_baggage_counter),
   ("tag_kiosk", cfg.capacity_tag_kiosk),
   ("drop_point", cfg.capacity_drop_point)]

/-- Per-station `queue_history`: the station's operations executed before
the horizon, in time order (stable for ties), run against a fresh
monitored resource. -/
def queueHistories (cfg : SimulationConfig) (st : ServiceTimes)
    (waits : ℕ → StageWaits) (draws : ℕ → ServiceDraws)
    (groups : List PassengerGroup) (horizon : ℚ) :
    List (String × List QueueSnapshot) :=
  (stationCapacities cfg).map (fun nc =>
    let ops := sortByKey ROp.time
      ((((processedGroups st waits draws groups).map
          (fun x => groupOpsFor nc.1 x.1)).flatten).filter
        (fun o => decide (o.time < horizon)))
    (nc.1, (runOps (initR nc.2.toNat) ops).history))

/-- Sampling instants of `SimulationEngine._position_sampler`: every
`sample_interval` of virtual time from 0 while before the horizon (the
group-coordinate payload of each snapshot is visualization data, outside
the kernel's scope). -/
def positionSampleTimes (interval horizon : ℚ) : List ℚ :=
  if 0 < interval ∧ 0 < horizon then
    (List.range (-Rat.floor (-(horizon / interval))).toNat).map
      (fun i => (i : ℚ) * interval)
  else []

/-- `SimulationResult` of `src/simulation/engine.py` (position snapshots
are represented by their sampling times). -/
structure SimulationResult where
  config : SimulationConfig
  completed_groups : List PassengerGroup
  queue_histories : List (String × List QueueSnapshot)
  area_occupancy_history : List AreaOccupancy
  position_snapshots : List ℚ
  simulation_duration_sec : ℚ

/-- The `TruncatedTDistribution` the engine hands to the arrival generator
(`ArrivalGenerator.__init__`). -/
def arrivalDist (cfg : SimulationConfig) : TruncatedTDistribution :=
  ⟨cfg.arrival_df, cfg.arrival_mean_min_before, cfg.arrival_scale,
   cfg.arrival_range_min, cfg.arrival_range_max⟩

/-- `SimulationEngine.__init__`: stores the configuration, node coordinates
and area polygons and initialises empty trackers.  It performs no
validation whatsoever and cannot fail. -/
def SimulationEngine_init (cfg : SimulationConfig) :
    Except String SimulationConfig :=
  .ok cfg

/-- `AirportResources.__init__`: creates the five `simpy.Resource`s;
`simpy` raises `ValueError` for a capacity `<= 0`. -/
def AirportResources_init (cfg : SimulationConfig) :
    Except String (List (String × RState)) :=
  if (stationCapacities cfg).all (fun nc => decide (0 < nc.2)) then
    .ok ((stationCapacities cfg).map (fun nc => (nc.1, initR nc.2.toNat)))
  else .error "ValueError: capacity must be greater than 0"

/-- `SimulationEngine.run`.  In source order: seed numpy's global generator
when `random_seed` is not `None` (the numpy streams `tDraws`, `uFracs`,
`draws` stand for that seeded generator; the stream `py` stands for
Python's stdlib `random` module, which is NOT seeded here), build the
resources (capacity errors surface here), the group factory
(`ZeroDivisionError` surfaces here), generate all arrivals, and — when no
groups were generated — return the empty result without starting the event
loop.  Otherwise the horizon is the last scheduled departure plus a 3600 s
buffer, the event loop runs until the horizon, and the collected results
are returned; `env.now` is then the horizon. -/
def SimulationEngine_run (cfg : SimulationConfig) (py tDraws uFracs : ℕ → ℚ)
    (waits : ℕ → StageWaits) (draws : ℕ → ServiceDraws)
    (slots : List DemandSlot) : Except String SimulationResult :=
  match AirportResources_init cfg with
  | .error e => .error e
  | .ok _ =>
    match PassengerGroupFactory_init cfg.p_online cfg.p_kiosk cfg.p_counter
      cfg.p_baggage cfg.p_baggage_counter cfg.p_single
      cfg.group_multi_min cfg.group_multi_max with
    | Option.none => .error "ZeroDivisionError: division by zero"
    | Option.some f =>
      let ad := arrivalDist cfg
      let st := create_service_times cfg
      let groups := (generate_all_arrivals f ad py tDraws uFracs slots ⟨0, 0, 0, 0⟩).1
      if groups.isEmpty then
        .ok ⟨cfg, [], [], [], [], 0⟩
      else
        let simulation_end := lastDeparture groups + 3600
        .ok ⟨cfg,
             collectCompleted st waits draws groups simulation_end,
             queueHistories cfg st waits draws groups simulation_end,
             areaHistory (sortByKey (fun e => e.time)
               (runAreaEvents st waits draws groups simulation_end)),
             positionSampleTimes cfg.sample_interval_sec simulation_end,
             simulation_end⟩

/-- Number of `enter_area` calls for a zone in an event list. -/
def countEnter (z : String) (l : List TimedEvent) : ℕ :=
  (l.filter (fun e => match e.ev with
    | .enter z' _ _ => z' == z
    | .leave _ _ => false)).length

/-- Number of `leave_area` calls for a zone in an event list. -/
def countLeave (z : String) (l : List TimedEvent) : ℕ :=
  (l.filter (fun e => match e.ev with
    | .enter _ _ _ => false
    | .leave z' _ => z' == z)).length

/-- An event list that is a sequence of enter/leave blocks: each block
enters a zone at time `a` and leaves it at time `b ≥ a`.  Every per-group
event list produced by `PassengerProcess_run` has this shape. -/
inductive WellPaired : List TimedEvent → Prop
  | nil : WellPaired []
  | pair (z : String) (gid gs : ℕ) (a b : ℚ) (rest : List TimedEvent) :
      a ≤ b → WellPaired rest →
      WellPaired (⟨a, .enter z gid gs⟩ :: ⟨b, .leave z gid⟩ :: rest)

/-- Sum of `group_size` over a list of groups. -/
def groupSizesSum (l : List PassengerGroup) : ℕ :=
  (l.map (fun g => g.group_size)).sum

/-- Grant delays are non-negative: the virtual clock never runs backwards
between `resource.request` and the grant. -/
def WaitsNonneg (w : StageWaits) : Prop :=
  0 ≤ w.checkin ∧ 0 ≤ w.baggage ∧ 0 ≤ w.tag ∧ 0 ≤ w.drop

/-- All five service floors are non-negative (the engine always uses the
default `min_time = 1`). -/
def MinTimesNonneg (st : ServiceTimes) : Prop :=
  0 ≤ st.checkin_kiosk.min_time ∧ 0 ≤ st.checkin_counter.min_time ∧
  0 ≤ st.baggage_counter.min_time ∧ 0 ≤ st.tag_kiosk.min_time ∧
  0 ≤ st.drop_point.min_time

/-- The per-stage timestamp ordering of the spec: for each stage, a set
`service_end` implies a set `service_start` with `start ≤ end`, and a set
`service_start` implies a set `queue_enter` with `enter ≤ start`. -/
def StageOrderOK (g : PassengerGroup) : Prop :=
  (∀ e, g.checkin_end = Option.some e →
    ∃ s, g.checkin_start = Option.some s ∧ s ≤ e) ∧
  (∀ s, g.checkin_start = Option.some s →
    ∃ q, g.checkin_queue_enter = Option.some q ∧ q ≤ s) ∧
  (∀ e, g.baggage_counter_end = Option.some e →
    ∃ s, g.baggage_counter_start = Option.some s ∧ s ≤ e) ∧
  (∀ s, g.baggage_counter_start = Option.some s →
    ∃ q, g.baggage_counter_queue_enter = Option.some q ∧ q ≤ s) ∧
  (∀ e, g.tag_end = Option.some e →
    ∃ s, g.tag_start = Option.some s ∧ s ≤ e) ∧
  (∀ s, g.tag_start = Option.some s →
    ∃ q, g.tag_queue_enter = Option.some q ∧ q ≤ s) ∧
  (∀ e, g.drop_end = Option.some e →
    ∃ s, g.drop_start = Option.some s ∧ s ≤ e) ∧
  (∀ s, g.drop_start = Option.some s →
    ∃ q, g.drop_queue_enter = Option.some q ∧ q ≤ s)

/-- A group as created by the factory: no stage timestamp set yet. -/
def FreshGroup (g : PassengerGroup) : Prop :=
  g.checkin_queue_enter = Option.none ∧ g.checkin_start = Option.none ∧
  g.checkin_end = Option.none ∧
  g.baggage_counter_queue_enter = Option.none ∧
  g.baggage_counter_start = Option.none ∧
  g.baggage_counter_end = Option.none ∧
  g.tag_queue_enter = Option.none ∧ g.tag_start = Option.none ∧
  g.tag_end = Option.none ∧
  g.drop_queue_enter = Option.none ∧ g.drop_start = Option.none ∧
  g.drop_end = Option.none ∧
  g.security_arrival = Option.none

/-- The factory the engine builds from the default configuration
(check-in split 0.3/0.5/0.2 already sums to 1, so normalization is the
identity). -/
def exampleFactory : Factory :=
  ⟨3/10, 1/2, 1/5, 1/2, 2/5, 7/10, 2, 4⟩

/-- A state of Python's global `random` stream whose draws send the first
created group to the kiosk with no baggage: size draw 0 (single), check-in
draw 1/2 (kiosk), baggage draw 1/2 (no baggage). -/
def examplePy : ℕ → ℚ := fun i => if i = 0 then 0 else 1/2

/-- A t-distribution stream whose candidates are all 70 (inside the default
bounds [20, 120], so the first candidate is accepted). -/
def exampleT : ℕ → ℚ := fun _ => 70

/-- A zero stream (for unit fractions of the uniform fallback). -/
def zeroStream : ℕ → ℚ := fun _ => 0

/-- No contention: all grant waits zero. -/
def zeroWaits : ℕ → StageWaits := fun _ => ⟨0, 0, 0, 0⟩

/-- Service draws of 10000 s at check-in: the first group's check-in ends
long after the horizon of a single small-departure slot. -/
def hugeDraws : ℕ → ServiceDraws := fun _ => ⟨10000, 0, 0, 0⟩

/-- Service draws of 60 s at check-in: the first group completes well
before the horizon. -/
def smallDraws : ℕ → ServiceDraws := fun _ => ⟨60, 0, 0, 0⟩

/-- A configuration whose baggage probability 3/2 lies outside `[0, 1]`. -/
def badConfig : SimulationConfig :=
  { defaultConfig with p_baggage := 3/2 }

/-- A freshly created kiosk group of one passenger, arriving at 0 for an
1800 s departure. -/
def exampleGroup : PassengerGroup :=
  { group_id := 0, group_size := 1, arrival_time := 0,
    departure_time := 1800, checkin_type := CheckinType.kiosk,
    has_baggage := false, baggage_drop_type := BaggageDropType.none }

/-! ## Theorems -/

/-- The grant step preserves the in-service/waiting split and moves granted
ids from the waiting order to the tail of the grant log. -/
theorem triggerAux_spec (cap : ℕ) :
    ∀ (queue users : List (ℕ × ℕ)) (glog : List ℕ),
      (triggerAux cap users queue glog).1 ++ (triggerAux cap users queue glog).2.1
          = users ++ queue ∧
      (triggerAux cap users queue glog).2.2
            ++ (triggerAux cap users queue glog).2.1.map Prod.fst
          = glog ++ queue.map Prod.fst
  | [], users, glog => by simp [triggerAux]
  | q :: rest, users, glog => by
    by_cases h : users.length < cap
    · have ih := triggerAux_spec cap rest (users ++ [q]) (glog ++ [q.1])
      simp only [triggerAux, if_pos h]
      refine ⟨?_, ?_⟩
      · rw [ih.1]; simp
      · rw [ih.2]; simp
    · simp [triggerAux, if_neg h]

/-- Projections unchanged by the grant step. -/
theorem triggerPut_unchanged (s : RState) :
    (triggerPut s).current = s.current ∧ (triggerPut s).history = s.history ∧
    (triggerPut s).requestLog = s.requestLog ∧
    (triggerPut s).capacity = s.capacity := by
  refine ⟨rfl, rfl, rfl, rfl⟩

/-- The FIFO ghost invariant: granted ids followed by the waiting ids, in
order, are exactly the ids in request order. -/
def FifoInv (s : RState) : Prop :=
  s.grantLog ++ s.queue.map Prod.fst = s.requestLog

/-- `FifoInv` is preserved by every operation. -/
theorem fifoInv_applyOp (s : RState) (op : ROp) (h : FifoInv s) :
    FifoInv (applyOp s op) := by
  cases op with
  | request t g sz =>
    have spec := triggerAux_spec s.capacity (s.queue ++ [(g, sz)]) s.users s.grantLog
    simp only [applyOp, doRequest, recordSnapshot, triggerPut, FifoInv] at *
    rw [spec.2]
    simp [← h]
  | release t g =>
    have spec := triggerAux_spec s.capacity s.queue
      (s.users.filter (fun p => p.1 ≠ g)) s.grantLog
    simp only [applyOp, doRelease, recordSnapshot, triggerPut, FifoInv] at *
    rw [spec.2]
    exact h

/-- `FifoInv` holds after any run from an initial state satisfying it. -/
theorem fifoInv_runOps (ops : List ROp) (s : RState) (h : FifoInv s) :
    FifoInv (runOps s ops) := by
  induction ops generalizing s with
  | nil => exact h
  | cons op rest ih => exact ih (applyOp s op) (fifoInv_applyOp s op h)

/-- C5.  FIFO fairness of `MonitoredResource`: for every operation sequence,
the granted ids followed by the still-waiting ids (in queue order) are
exactly the ids in request order — so requests are granted strictly in
enqueue order, irrespective of group size; and in the concrete capacity-1
scenario with groups 10, 11, 12 (sizes 1, 5, 2) requesting at virtual
times 0 < 1 < 2, the grant order equals the arrival order. -/
theorem resource_grants_are_fifo :
    (∀ (cap : ℕ) (ops : List ROp),
      (runOps (initR cap) ops).grantLog
          ++ (runOps (initR cap) ops).queue.map Prod.fst
        = (runOps (initR cap) ops).requestLog) ∧
    (runOps (initR 1) [.request 0 10 1, .request 1 11 5, .request 2 12 2,
        .release 3 10, .release 4 11, .release 5 12]).grantLog = [10, 11, 12] := by
  constructor
  · intro cap ops
    exact fifoInv_runOps ops (initR cap) rfl
  · with_unfolding_all decide

/-- Structural invariant of a monitored resource: the Python tracking list
`_current_queue` is exactly the in-service requests followed by the waiting
requests (both in request order), with pairwise-distinct group ids. -/
def ResInv (s : RState) : Prop :=
  s.current = s.users ++ s.queue ∧ (s.current.map Prod.fst).Nodup

/-- A fresh request preserves the structural invariant. -/
theorem resInv_doRequest (s : RState) (t : ℚ) (g sz : ℕ)
    (hfresh : s.current.all (fun p => p.1 ≠ g) = true) (h : ResInv s) :
    ResInv (doRequest t g sz s) := by
  have spec := triggerAux_spec s.capacity (s.queue ++ [(g, sz)]) s.users s.grantLog
  constructor
  · show (doRequest t g sz s).current
        = (doRequest t g sz s).users ++ (doRequest t g sz s).queue
    simp only [doRequest, recordSnapshot, triggerPut]
    rw [spec.1, h.1]
    simp
  · show ((doRequest t g sz s).current.map Prod.fst).Nodup
    simp only [doRequest, recordSnapshot, triggerPut]
    have hg : g ∉ s.current.map Prod.fst := by
      simp only [List.all_eq_true, decide_eq_true_eq] at hfresh
      simp only [List.mem_map]
      rintro ⟨p, hp, hpg⟩
      exact hfresh p hp hpg
    simpa [List.nodup_append] using ⟨h.2, by simpa using hg⟩

/-- With distinct ids, dropping an in-service group from `_current_queue`
leaves the released user set followed by the untouched waiting queue. -/
theorem current_filter_split (s : RState) (g : ℕ) (h : ResInv s)
    (hg : g ∈ s.users.map Prod.fst) :
    s.current.filter (fun p => p.1 ≠ g)
      = s.users.filter (fun p => p.1 ≠ g) ++ s.queue := by
  have hnd := h.2
  rw [h.1] at hnd
  rw [h.1, List.filter_append]
  congr 1
  apply List.filter_eq_self.mpr
  intro p hp
  have hdisj : List.Disjoint (s.users.map Prod.fst) (s.queue.map Prod.fst) := by
    have := List.disjoint_of_nodup_append (by simpa using hnd)
    exact this
  have hpq : p.1 ∈ s.queue.map Prod.fst := List.mem_map_of_mem Prod.fst hp
  have : p.1 ≠ g := by
    intro e
    exact hdisj (e ▸ hg) hpq
  simpa using this

/-- Releasing an in-service group preserves the structural invariant. -/
theorem resInv_doRelease (s : RState) (t : ℚ) (g : ℕ)
    (hmem : s.users.any (fun p => p.1 = g) = true) (h : ResInv s) :
    ResInv (doRelease t g s) := by
  have hg : g ∈ s.users.map Prod.fst := by
    simp only [List.any_eq_true, decide_eq_true_eq] at hmem
    obtain ⟨p, hp, hpg⟩ := hmem
    exact hpg ▸ List.mem_map_of_mem Prod.fst hp
  have spec := triggerAux_spec s.capacity s.queue
    (s.users.filter (fun p => p.1 ≠ g)) s.grantLog
  constructor
  · show (doRelease t g s).current
        = (doRelease t g s).users ++ (doRelease t g s).queue
    simp only [doRelease, recordSnapshot, triggerPut]
    rw [spec.1]
    exact current_filter_split s g h hg
  · show ((doRelease t g s).current.map Prod.fst).Nodup
    simp only [doRelease, recordSnapshot, triggerPut]
    exact h.2.sublist (List.Sublist.map Prod.fst (List.filter_sublist s.current))

/-- The structural invariant holds along every well-formed run. -/
theorem resInv_runOps :
    ∀ (ops : List ROp) (s : RState), validOps s ops = true → ResInv s →
      ResInv (runOps s ops)
  | [], _, _, h => h
  | .request t g sz :: rest, s, hv, h => by
    rw [validOps, Bool.and_eq_true] at hv
    exact resInv_runOps rest _ hv.2 (resInv_doRequest s t g sz hv.1 h)
  | .release t g :: rest, s, hv, h => by
    rw [validOps, Bool.and_eq_true] at hv
    exact resInv_runOps rest _ hv.2 (resInv_doRelease s t g hv.1 h)

/-- The conditional in `_record_snapshot` is redundant: an empty prefix sums
to 0 anyway. -/
theorem if_pos_sizeSum (l : List (ℕ × ℕ)) (n : ℕ) :
    (if 0 < n then sizeSum (l.take n) else 0) = sizeSum (l.take n) := by
  cases n with
  | zero => simp [sizeSum]
  | succ m => simp

/-- C2 (amended).  What a `QueueSnapshot` actually records, for any
well-formed operation sequence on a `MonitoredResource`: the tracking list
is the in-service requests followed by the waiting requests in request
order; the snapshot taken inside `request` records `queue_length` as the
number of requests already pending before this call (the new request is not
yet counted) and `queue_pax_count` as the group-size sum of the FIRST
`queue_length` entries of that tracking list — i.e. of the longest-tracked
(generally in-service) groups, not of the waiting ones; the snapshot taken
inside `release` does the same after the releasing group is dropped.  The
recorded `queue_pax_count` therefore coincides with the waiting-pax sum
only when no group is in service. -/
theorem queue_snapshot_characterization (cap : ℕ) (ops : List ROp)
    (hv : validOps (initR cap) ops = true) :
    (runOps (initR cap) ops).current
        = (runOps (initR cap) ops).users ++ (runOps (initR cap) ops).queue ∧
    (∀ (t : ℚ) (g sz : ℕ),
      (runOps (initR cap) (ops ++ [.request t g sz])).history
        = (runOps (initR cap) ops).history
          ++ [⟨t, (runOps (initR cap) ops).queue.length,
               sizeSum (((runOps (initR cap) ops).users
                   ++ (runOps (initR cap) ops).queue).take
                 (runOps (initR cap) ops).queue.length),
               (runOps (initR cap) ops).users.length⟩]) ∧
    (∀ (t : ℚ) (g : ℕ), g ∈ (runOps (initR cap) ops).users.map Prod.fst →
      (runOps (initR cap) (ops ++ [.release t g])).history
        = (runOps (initR cap) ops).history
          ++ [⟨t, (runOps (initR cap) ops).queue.length,
               sizeSum ((((runOps (initR cap) ops).users.filter (fun p => p.1 ≠ g))
                   ++ (runOps (initR cap) ops).queue).take
                 (runOps (initR cap) ops).queue.length),
               ((runOps (initR cap) ops).users.filter (fun p => p.1 ≠ g)).length⟩]) := by
  have inv : ResInv (runOps (initR cap) ops) :=
    resInv_runOps ops (initR cap) hv ⟨rfl, List.nodup_nil⟩
  set s := runOps (initR cap) ops with hs
  have happ : ∀ op : ROp, runOps (initR cap) (ops ++ [op]) = applyOp s op := by
    intro op
    rw [runOps, List.foldl_append]
    rfl
  refine ⟨inv.1, ?_, ?_⟩
  · intro t g sz
    rw [happ]
    show (doRequest t g sz s).history = _
    simp only [doRequest, recordSnapshot, triggerPut]
    congr 2
    rw [if_pos_sizeSum]
    have hlen : s.queue.length ≤ s.current.length := by
      rw [inv.1]
      simp
    rw [List.take_append_of_le_length hlen, inv.1]
  · intro t g hg
    rw [happ]
    show (doRelease t g s).history = _
    simp only [doRelease, recordSnapshot, triggerPut]
    congr 2
    rw [if_pos_sizeSum, current_filter_split s g inv hg]

/-- C2 counterexample.  Station of capacity 1; group 0 (size 2) requests at
time 0 and is served at once; group 1 (size 3) requests at time 1 and
waits; group 2 (size 5) requests at time 2.  The snapshot recorded during
group 2's request has `queue_length = 1` and `queue_pax_count = 2` — the
size of the IN-SERVICE group 0 — while the only waiting, not-yet-granted
request at that instant is group 1 with 3 passengers: the recorded value 2
is not the waiting-pax sum 3 (nor 8, the sum including the request being
added). -/
theorem queue_pax_count_mismatch_example :
    (runOps (initR 1) [.request 0 0 2, .request 1 1 3, .request 2 2 5]).history
      = [⟨0, 0, 0, 0⟩, ⟨1, 0, 0, 1⟩, ⟨2, 1, 2, 1⟩] ∧
    (runOps (initR 1) [.request 0 0 2, .request 1 1 3]).queue = [(1, 3)] ∧
    sizeSum [(1, 3)] = 3 ∧ (2 : ℕ) ≠ 3 ∧ (2 : ℕ) ≠ 8 := by
  with_unfolding_all decide

/-- Witness for `queue_snapshot_characterization` at a concrete input:
capacity 1, a size-2 request by group 5 already granted, then group 6's
request is recorded. -/
theorem queue_snapshot_characterization_witness :
    validOps (initR 1) [.request 0 5 2] = true ∧
    (runOps (initR 1) ([.request 0 5 2] ++ [.request 1 6 3])).history
      = (runOps (initR 1) [.request 0 5 2]).history
        ++ [⟨1, (runOps (initR 1) [.request 0 5 2]).queue.length,
             sizeSum (((runOps (initR 1) [.request 0 5 2]).users
                 ++ (runOps (initR 1) [.request 0 5 2]).queue).take
               (runOps (initR 1) [.request 0 5 2]).queue.length),
             (runOps (initR 1) [.request 0 5 2]).users.length⟩] :=
  ⟨by with_unfolding_all decide,
   (queue_snapshot_characterization 1 [.request 0 5 2]
     (by with_unfolding_all decide)).2.1 1 6 3⟩

/-- Every sample accumulated by the rejection loop lies within the bounds
(accepted candidates are filtered into `[lower, upper]`). -/
theorem sampleLoop_mem (lower upper : ℚ) (tDraws : ℕ → ℚ) (size maxA : ℕ) :
    ∀ (fuel : ℕ) (acc : List ℚ) (attempts tcur : ℕ),
      (∀ x ∈ acc, lower ≤ x ∧ x ≤ upper) →
      ∀ x ∈ (sampleLoop lower upper tDraws size maxA fuel acc attempts tcur).1,
        lower ≤ x ∧ x ≤ upper
  | 0, acc, attempts, tcur, hacc => hacc
  | fuel + 1, acc, attempts, tcur, hacc => by
    rw [sampleLoop]
    by_cases h : acc.length < size ∧ attempts < maxA
    · rw [if_pos h]
      apply sampleLoop_mem lower upper tDraws size maxA fuel
      intro x hx
      rcases List.mem_append.mp hx with hx | hx
      · exact hacc x hx
      · have := List.of_mem_filter hx
        simpa using this
    · rw [if_neg h]
      exact hacc

/-- C7.  `TruncatedTDistribution.sample(size)` returns exactly `size`
values, each within `[lower, upper]` (accepted candidates by the rejection
filter, the uniform fallback by the bounds of `np.random.uniform`), for any
requested `size ≥ 1`, bounds `lower ≤ upper`, and any uniform stream of
unit fractions; the rejection budget `100 × size` and the uniform fill are
the definition of `TruncatedTDistribution_sample`. -/
theorem truncated_sample_bounds (d : TruncatedTDistribution)
    (tDraws uFracs : ℕ → ℚ) (tcur ucur size : ℕ)
    (_hsize : 1 ≤ size) (hlu : d.lower ≤ d.upper)
    (hu : ∀ i, 0 ≤ uFracs i ∧ uFracs i ≤ 1) :
    (TruncatedTDistribution_sample d tDraws uFracs tcur ucur size).1.length = size ∧
    ∀ x ∈ (TruncatedTDistribution_sample d tDraws uFracs tcur ucur size).1,
      d.lower ≤ x ∧ x ≤ d.upper := by
  have hloop := sampleLoop_mem d.lower d.upper tDraws size (size * 100)
    (size * 100) [] 0 tcur (by intro x hx; cases hx)
  rw [TruncatedTDistribution_sample]
  by_cases h : (sampleLoop d.lower d.upper tDraws size (size * 100) (size * 100)
      [] 0 tcur).1.length < size
  · rw [if_pos h]
    constructor
    · simp only [List.length_take, List.length_append, List.length_map,
        List.length_range]
      omega
    · intro x hx
      have hx' := List.mem_of_mem_take hx
      rcases List.mem_append.mp hx' with hx'' | hx''
      · exact hloop x hx''
      · simp only [List.mem_map, List.mem_range] at hx''
        obtain ⟨i, _, rfl⟩ := hx''
        have hui := hu (ucur + i)
        constructor
        · have : 0 ≤ (d.upper - d.lower) * uFracs (ucur + i) :=
            mul_nonneg (by linarith) hui.1
          linarith
        · have : (d.upper - d.lower) * uFracs (ucur + i) ≤ d.upper - d.lower := by
            nlinarith [hui.1, hui.2]
          linarith
  · rw [if_neg h]
    constructor
    · simp only [List.length_take]
      omega
    · intro x hx
      exact hloop x (List.mem_of_mem_take hx)

/-- Witness for `truncated_sample_bounds`: the default arrival distribution,
all-70 candidates, zero unit fractions, 3 requested samples. -/
theorem truncated_sample_bounds_witness :
    (TruncatedTDistribution_sample (arrivalDist defaultConfig) exampleT
        zeroStream 0 0 3).1.length = 3 ∧
    ∀ x ∈ (TruncatedTDistribution_sample (arrivalDist defaultConfig) exampleT
        zeroStream 0 0 3).1,
      (arrivalDist defaultConfig).lower ≤ x ∧ x ≤ (arrivalDist defaultConfig).upper :=
  truncated_sample_bounds (arrivalDist defaultConfig) exampleT zeroStream 0 0 3
    (by decide) (by with_unfolding_all decide)
    (fun i => by constructor <;> simp [zeroStream])

/-- `random.randint(a, b)` yields a value in `[a, b]` for a unit draw and
`a ≤ b`. -/
theorem randintModel_bounds (u : ℚ) (a b : ℕ) (hu0 : 0 ≤ u) (hu1 : u < 1)
    (hab : a ≤ b) : a ≤ randintModel u a b ∧ randintModel u a b ≤ b := by
  have hm : (0 : ℚ) < (b : ℚ) - (a : ℚ) + 1 := by
    have : (a : ℚ) ≤ (b : ℚ) := by exact_mod_cast hab
    linarith
  have hprod0 : 0 ≤ u * ((b : ℚ) - (a : ℚ) + 1) := mul_nonneg hu0 (le_of_lt hm)
  have hprodlt : u * ((b : ℚ) - (a : ℚ) + 1) < (b : ℚ) - (a : ℚ) + 1 := by
    nlinarith
  have hfl0 : 0 ≤ Rat.floor (u * ((b : ℚ) - (a : ℚ) + 1)) := by
    rw [Rat.le_floor]
    exact_mod_cast hprod0
  have hflub : Rat.floor (u * ((b : ℚ) - (a : ℚ) + 1)) ≤ (b : ℤ) - (a : ℤ) := by
    by_contra hcon
    push_neg at hcon
    have : ((b : ℤ) - (a : ℤ) + 1 : ℤ) ≤ Rat.floor (u * ((b : ℚ) - (a : ℚ) + 1)) := by
      omega
    rw [Rat.le_floor] at this
    push_cast at this
    linarith
  unfold randintModel
  omega

/-- The size drawn by `create_group` is 1 or lies in
`[multi_min, multi_max]`. -/
theorem create_group_size (f : Factory) (py : ℕ → ℚ) (cur gid : ℕ)
    (arrival departure : ℚ) (h2 : f.multi_min ≤ f.multi_max)
    (hpy : ∀ i, 0 ≤ py i ∧ py i < 1) :
    (create_group f py cur gid arrival departure).1.group_size = 1 ∨
    (f.multi_min ≤ (create_group f py cur gid arrival departure).1.group_size ∧
      (create_group f py cur gid arrival departure).1.group_size ≤ f.multi_max) := by
  by_cases hc : py cur < f.p_single
  · left
    simp [create_group, if_pos hc]
  · right
    have hb := randintModel_bounds (py (cur + 1)) f.multi_min f.multi_max
      (hpy (cur + 1)).1 (hpy (cur + 1)).2 h2
    simpa [create_group, if_neg hc] using hb

/-- The group created by one loop iteration obeys the size rule. -/
theorem slotStep_size (f : Factory) (ad : TruncatedTDistribution)
    (py tDraws uFracs : ℕ → ℚ) (slot : DemandSlot) (st : GenState)
    (h2 : f.multi_min ≤ f.multi_max) (hpy : ∀ i, 0 ≤ py i ∧ py i < 1) :
    (slotStep f ad py tDraws uFracs slot st).1.group_size = 1 ∨
    (f.multi_min ≤ (slotStep f ad py tDraws uFracs slot st).1.group_size ∧
      (slotStep f ad py tDraws uFracs slot st).1.group_size ≤ f.multi_max) := by
  have h := create_group_size f py st.pycur st.gid
    ((max 0 ((slot.start_minutes + slot.end_minutes) / 2 -
      (TruncatedTDistribution_sample_one ad tDraws uFracs st.tcur st.ucur).1)) * 60)
    (((slot.start_minutes + slot.end_minutes) / 2) * 60) h2 hpy
  simpa [slotStep] using h

/-- Unfolding equation for the generation loop when demand remains. -/
theorem gen_slot_aux_cons (f : Factory) (ad : TruncatedTDistribution)
    (py tDraws uFracs : ℕ → ℚ) (slot : DemandSlot) (fuel : ℕ)
    (remaining : ℤ) (st : GenState) (hr : 0 < remaining) :
    generate_arrivals_for_slot_aux f ad py tDraws uFracs slot (fuel + 1)
        remaining st
      = ((slotStep f ad py tDraws uFracs slot st).1 ::
          (generate_arrivals_for_slot_aux f ad py tDraws uFracs slot fuel
            (remaining - ((slotStep f ad py tDraws uFracs slot st).1.group_size : ℤ))
            (slotStep f ad py tDraws uFracs slot st).2).1,
         (generate_arrivals_for_slot_aux f ad py tDraws uFracs slot fuel
            (remaining - ((slotStep f ad py tDraws uFracs slot st).1.group_size : ℤ))
            (slotStep f ad py tDraws uFracs slot st).2).2) := by
  rw [generate_arrivals_for_slot_aux]
  rw [if_neg (by omega)]

/-- Specification of the per-slot generation loop: with group sizes at
least 1, the loop stops exactly when the remaining demand is exhausted, the
generated sizes cover the remaining demand without overshooting it by
`multi_max` or more, and every size is 1 or in `[multi_min, multi_max]`. -/
theorem gen_slot_aux_spec (f : Factory) (ad : TruncatedTDistribution)
    (py tDraws uFracs : ℕ → ℚ) (slot : DemandSlot)
    (h1 : 1 ≤ f.multi_min) (h2 : f.multi_min ≤ f.multi_max)
    (hpy : ∀ i, 0 ≤ py i ∧ py i < 1) :
    ∀ (fuel : ℕ) (remaining : ℤ) (st : GenState), remaining.toNat ≤ fuel →
      ((remaining ≤ 0 →
        (generate_arrivals_for_slot_aux f ad py tDraws uFracs slot fuel remaining st).1 = []) ∧
      remaining ≤ (groupSizesSum
        (generate_arrivals_for_slot_aux f ad py tDraws uFracs slot fuel remaining st).1 : ℤ) ∧
      (0 < remaining → (groupSizesSum
        (generate_arrivals_for_slot_aux f ad py tDraws uFracs slot fuel remaining st).1 : ℤ)
          < remaining + (f.multi_max : ℤ)) ∧
      (∀ g ∈ (generate_arrivals_for_slot_aux f ad py tDraws uFracs slot fuel remaining st).1,
        g.group_size = 1 ∨ (f.multi_min ≤ g.group_size ∧ g.group_size ≤ f.multi_max)))
  | 0, remaining, st, hfuel => by
    have hr : remaining ≤ 0 := by omega
    refine ⟨fun _ => rfl, ?_, fun hpos => absurd hpos (by omega),
      fun g hg => absurd hg (by simp [generate_arrivals_for_slot_aux])⟩
    simpa [generate_arrivals_for_slot_aux, groupSizesSum] using hr
  | fuel + 1, remaining, st, hfuel => by
    by_cases hr : remaining ≤ 0
    · refine ⟨fun _ => by simp [generate_arrivals_for_slot_aux, if_pos hr], ?_,
        fun hpos => absurd hpos (by omega), fun g hg => ?_⟩
      · simpa [generate_arrivals_for_slot_aux, if_pos hr, groupSizesSum] using hr
      · rw [generate_arrivals_for_slot_aux] at hg
        rw [if_pos hr] at hg
        exact absurd hg (by simp)
    · push_neg at hr
      have hsz := slotStep_size f ad py tDraws uFracs slot st h2 hpy
      have hsz1 : 1 ≤ (slotStep f ad py tDraws uFracs slot st).1.group_size := by
        rcases hsz with h | h <;> omega
      have hszmax : (slotStep f ad py tDraws uFracs slot st).1.group_size
          ≤ f.multi_max := by
        rcases hsz with h | h <;> omega
      have hfuel' :
          (remaining - ((slotStep f ad py tDraws uFracs slot st).1.group_size : ℤ)).toNat
            ≤ fuel := by omega
      have ih := gen_slot_aux_spec f ad py tDraws uFracs slot h1 h2 hpy fuel
        (remaining - ((slotStep f ad py tDraws uFracs slot st).1.group_size : ℤ))
        (slotStep f ad py tDraws uFracs slot st).2 hfuel'
      rw [gen_slot_aux_cons f ad py tDraws uFracs slot fuel remaining st hr]
      refine ⟨fun hc => absurd hc (by omega), ?_, fun _ => ?_, fun g hg => ?_⟩
      · simp only [groupSizesSum, List.map_cons, List.sum_cons] at ih ⊢
        push_cast at ih ⊢
        linarith [ih.2.1]
      · simp only [groupSizesSum, List.map_cons, List.sum_cons] at ih ⊢
        rcases le_or_lt
            (remaining - ((slotStep f ad py tDraws uFracs slot st).1.group_size : ℤ)) 0
          with hle | hlt
        · rw [ih.1 hle]
          simp only [List.map_nil, List.sum_nil, Nat.add_zero]
          omega
        · have hlt' := ih.2.2.1 hlt
          push_cast at hlt' ⊢
          linarith
      · rcases List.mem_cons.mp hg with hgeq | hg2
        · rw [hgeq]
          exact hsz
        · exact ih.2.2.2 g hg2

/-- C6.  Demand conservation of
`ArrivalGenerator.generate_arrivals_for_slot`: a slot with
`pax_count ≤ 0` contributes zero groups; for `pax_count = P > 0` (with
`1 ≤ multi_min ≤ multi_max` and unit-interval draws) the generated sizes
sum to at least `P` and strictly less than `P + multi_max`, every size
being 1 or in `[multi_min, multi_max]`. -/
theorem demand_conservation (f : Factory) (ad : TruncatedTDistribution)
    (py tDraws uFracs : ℕ → ℚ) (slot : DemandSlot) (st : GenState)
    (h1 : 1 ≤ f.multi_min) (h2 : f.multi_min ≤ f.multi_max)
    (hpy : ∀ i, 0 ≤ py i ∧ py i < 1) :
    (slot.pax_count ≤ 0 →
      (generate_arrivals_for_slot f ad py tDraws uFracs slot st).1 = []) ∧
    (0 < slot.pax_count →
      slot.pax_count ≤ (groupSizesSum
        (generate_arrivals_for_slot f ad py tDraws uFracs slot st).1 : ℤ) ∧
      (groupSizesSum
        (generate_arrivals_for_slot f ad py tDraws uFracs slot st).1 : ℤ)
          < slot.pax_count + (f.multi_max : ℤ) ∧
      ∀ g ∈ (generate_arrivals_for_slot f ad py tDraws uFracs slot st).1,
        g.group_size = 1 ∨
          (f.multi_min ≤ g.group_size ∧ g.group_size ≤ f.multi_max)) := by
  have spec := gen_slot_aux_spec f ad py tDraws uFracs slot h1 h2 hpy
    slot.pax_count.toNat slot.pax_count st (le_refl _)
  exact ⟨spec.1, fun hpos => ⟨spec.2.1, spec.2.2.1 hpos, spec.2.2.2⟩⟩

/-- Witness for `demand_conservation`: the default factory, a slot of 3
passengers, draws that make every group a single traveller. -/
theorem demand_conservation_witness :
    ((⟨0, 60, 3⟩ : DemandSlot).pax_count ≤ 0 →
      (generate_arrivals_for_slot exampleFactory (arrivalDist defaultConfig)
        zeroStream exampleT zeroStream ⟨0, 60, 3⟩ ⟨0, 0, 0, 0⟩).1 = []) ∧
    (0 < (⟨0, 60, 3⟩ : DemandSlot).pax_count →
      (⟨0, 60, 3⟩ : DemandSlot).pax_count ≤ (groupSizesSum
        (generate_arrivals_for_slot exampleFactory (arrivalDist defaultConfig)
          zeroStream exampleT zeroStream ⟨0, 60, 3⟩ ⟨0, 0, 0, 0⟩).1 : ℤ) ∧
      (groupSizesSum
        (generate_arrivals_for_slot exampleFactory (arrivalDist defaultConfig)
          zeroStream exampleT zeroStream ⟨0, 60, 3⟩ ⟨0, 0, 0, 0⟩).1 : ℤ)
          < (⟨0, 60, 3⟩ : DemandSlot).pax_count + (exampleFactory.multi_max : ℤ) ∧
      ∀ g ∈ (generate_arrivals_for_slot exampleFactory (arrivalDist defaultConfig)
          zeroStream exampleT zeroStream ⟨0, 60, 3⟩ ⟨0, 0, 0, 0⟩).1,
        g.group_size = 1 ∨
          (exampleFactory.multi_min ≤ g.group_size ∧
            g.group_size ≤ exampleFactory.multi_max)) :=
  demand_conservation exampleFactory (arrivalDist defaultConfig) zeroStream
    exampleT zeroStream ⟨0, 60, 3⟩ ⟨0, 0, 0, 0⟩
    (by with_unfolding_all decide) (by with_unfolding_all decide)
    (fun i => by constructor <;> simp [zeroStream])

/-- Inserting keeps the list's members (as a permutation). -/
theorem insertByKey_perm {α : Type} (key : α → ℚ) (e : α) :
    ∀ l : List α, (insertByKey key e l).Perm (e :: l)
  | [] => List.Perm.refl _
  | x :: xs => by
    rw [insertByKey]
    by_cases h : key x ≤ key e
    · rw [if_pos h]
      exact ((insertByKey_perm key e xs).cons x).trans (List.Perm.swap e x xs)
    · rw [if_neg h]

/-- The stable sort is a permutation of its input. -/
theorem sortByKey_perm {α : Type} (key : α → ℚ) (l : List α) :
    (sortByKey key l).Perm l := by
  have aux : ∀ (l acc : List α),
      (l.foldl (fun acc e => insertByKey key e acc) acc).Perm (acc ++ l) := by
    intro l
    induction l with
    | nil => intro acc; simp
    | cons e rest ih =>
      intro acc
      exact (ih (insertByKey key e acc)).trans
        (((insertByKey_perm key e acc).append_right rest).trans
          List.perm_middle.symm)
  simpa [sortByKey] using aux l []

/-- Freshly created groups carry no timestamps. -/
theorem create_group_fresh (f : Factory) (py : ℕ → ℚ) (cur gid : ℕ)
    (arrival departure : ℚ) :
    FreshGroup (create_group f py cur gid arrival departure).1 := by
  refine ⟨?_, ?_, ?_, ?_, ?_, ?_, ?_, ?_, ?_, ?_, ?_, ?_, ?_⟩ <;>
    simp [create_group, FreshGroup]

/-- Every group produced by the per-slot loop is fresh. -/
theorem gen_slot_aux_fresh (f : Factory) (ad : TruncatedTDistribution)
    (py tDraws uFracs : ℕ → ℚ) (slot : DemandSlot) :
    ∀ (fuel : ℕ) (remaining : ℤ) (st : GenState),
      ∀ g ∈ (generate_arrivals_for_slot_aux f ad py tDraws uFracs slot
        fuel remaining st).1, FreshGroup g
  | 0, remaining, st => by
    intro g hg
    exact absurd hg (by simp [generate_arrivals_for_slot_aux])
  | fuel + 1, remaining, st => by
    intro g hg
    by_cases hr : remaining ≤ 0
    · rw [generate_arrivals_for_slot_aux] at hg
      rw [if_pos hr] at hg
      exact absurd hg (by simp)
    · rw [gen_slot_aux_cons f ad py tDraws uFracs slot fuel remaining st
        (by omega)] at hg
      rcases List.mem_cons.mp hg with hgeq | hg2
      · rw [hgeq]
        exact create_group_fresh f py st.pycur st.gid _ _
      · exact gen_slot_aux_fresh f ad py tDraws uFracs slot fuel _ _ g hg2

/-- Every group returned by `generate_all_arrivals` is fresh. -/
theorem generate_all_arrivals_fresh (f : Factory) (ad : TruncatedTDistribution)
    (py tDraws uFracs : ℕ → ℚ) (slots : List DemandSlot) (st : GenState) :
    ∀ g ∈ (generate_all_arrivals f ad py tDraws uFracs slots st).1,
      FreshGroup g := by
  have aux : ∀ (slots : List DemandSlot) (acc : List PassengerGroup × GenState),
      (∀ g ∈ acc.1, FreshGroup g) →
      ∀ g ∈ (slots.foldl
        (fun (acc : List PassengerGroup × GenState) slot =>
          if 0 < slot.pax_count then
            let gen := generate_arrivals_for_slot f ad py tDraws uFracs slot acc.2
            (acc.1 ++ gen.1, gen.2)
          else acc)
        acc).1, FreshGroup g := by
    intro slots
    induction slots with
    | nil => intro acc hacc; exact hacc
    | cons s rest ih =>
      intro acc hacc
      simp only [List.foldl_cons]
      by_cases hs : 0 < s.pax_count
      · rw [if_pos hs]
        apply ih
        intro g hg
        rcases List.mem_append.mp hg with h | h
        · exact hacc g h
        · exact gen_slot_aux_fresh f ad py tDraws uFracs s _ _ _ g h
      · rw [if_neg hs]
        exact ih acc hacc
  intro g hg
  rw [generate_all_arrivals] at hg
  have hg' := (sortByKey_perm (fun g : PassengerGroup => g.arrival_time) _).mem_iff.mp hg
  exact aux slots ([], st) (by intro g h; cases h) g hg'

/-- Stage-timestamp ordering of the process state machine: run on a fresh
group with non-negative grant waits and service floors, every stage's
timestamps are ordered `queue_enter ≤ service_start ≤ service_end`. -/
theorem processRun_stage_order (st : ServiceTimes) (g : PassengerGroup)
    (w : StageWaits) (d : ServiceDraws) (hw : WaitsNonneg w)
    (hm : MinTimesNonneg st) (hf : FreshGroup g) :
    StageOrderOK (PassengerProcess_run st g w d).1 := by
  obtain ⟨hw1, hw2, hw3, hw4⟩ := hw
  obtain ⟨hm1, hm2, hm3, hm4, hm5⟩ := hm
  obtain ⟨f1, f2, f3, f4, f5, f6, f7, f8, f9, f10, f11, f12, f13⟩ := hf
  have s1 := le_max_right d.checkin st.checkin_kiosk.min_time
  have s2 := le_max_right d.checkin st.checkin_counter.min_time
  have s3 := le_max_right d.baggage st.baggage_counter.min_time
  have s4 := le_max_right d.tag st.tag_kiosk.min_time
  have s5 := le_max_right d.drop st.drop_point.min_time
  cases hct : g.checkin_type <;> cases hbt : g.baggage_drop_type <;>
    · simp only [StageOrderOK, PassengerProcess_run,
        ServiceTimeDistribution_sample_one, hct, hbt, f1, f2, f3, f4, f5, f6,
        f7, f8, f9, f10, f11, f12]
      refine ⟨?_, ?_, ?_, ?_, ?_, ?_, ?_, ?_⟩ <;>
        · intro x hx
          first
          | exact Option.noConfusion hx
          | (simp only [Option.some.injEq] at hx
             subst hx
             exact ⟨_, rfl, by linarith⟩)

/-- The process preserves identity and arrival data and stamps
`security_arrival` with its completion time. -/
theorem processRun_fields (st : ServiceTimes) (g : PassengerGroup)
    (w : StageWaits) (d : ServiceDraws) :
    (PassengerProcess_run st g w d).1.group_id = g.group_id ∧
    (PassengerProcess_run st g w d).1.arrival_time = g.arrival_time ∧
    (PassengerProcess_run st g w d).1.security_arrival
      = Option.some (PassengerProcess_run st g w d).2.2 := by
  cases hct : g.checkin_type <;> cases hbt : g.baggage_drop_type <;>
    simp [PassengerProcess_run, hct, hbt]

/-- A group's completion time is at or after its arrival time. -/
theorem processRun_arrival_le (st : ServiceTimes) (g : PassengerGroup)
    (w : StageWaits) (d : ServiceDraws) (hw : WaitsNonneg w)
    (hm : MinTimesNonneg st) :
    g.arrival_time ≤ (PassengerProcess_run st g w d).2.2 := by
  obtain ⟨hw1, hw2, hw3, hw4⟩ := hw
  obtain ⟨hm1, hm2, hm3, hm4, hm5⟩ := hm
  have s1 := le_max_right d.checkin st.checkin_kiosk.min_time
  have s2 := le_max_right d.checkin st.checkin_counter.min_time
  have s3 := le_max_right d.baggage st.baggage_counter.min_time
  have s4 := le_max_right d.tag st.tag_kiosk.min_time
  have s5 := le_max_right d.drop st.drop_point.min_time
  cases hct : g.checkin_type <;> cases hbt : g.baggage_drop_type <;>
    · simp only [PassengerProcess_run, ServiceTimeDistribution_sample_one,
        hct, hbt]
      linarith

/-- Every area call of a process happens no later than its completion. -/
theorem processRun_times_le (st : ServiceTimes) (g : PassengerGroup)
    (w : StageWaits) (d : ServiceDraws) (hw : WaitsNonneg w)
    (hm : MinTimesNonneg st) :
    ∀ e ∈ (PassengerProcess_run st g w d).2.1,
      e.time ≤ (PassengerProcess_run st g w d).2.2 := by
  obtain ⟨hw1, hw2, hw3, hw4⟩ := hw
  obtain ⟨hm1, hm2, hm3, hm4, hm5⟩ := hm
  have s1 := le_max_right d.checkin st.checkin_kiosk.min_time
  have s2 := le_max_right d.checkin st.checkin_counter.min_time
  have s3 := le_max_right d.baggage st.baggage_counter.min_time
  have s4 := le_max_right d.tag st.tag_kiosk.min_time
  have s5 := le_max_right d.drop st.drop_point.min_time
  cases hct : g.checkin_type <;> cases hbt : g.baggage_drop_type <;>
    · simp only [PassengerProcess_run, ServiceTimeDistribution_sample_one,
        hct, hbt, List.mem_append, List.mem_cons, List.not_mem_nil, or_false,
        List.nil_append, List.cons_append, forall_eq_or_imp, forall_eq]
      repeat' apply And.intro
      all_goals linarith

/-- The area calls of one process form enter/leave blocks with
non-decreasing block times. -/
theorem processRun_wellPaired (st : ServiceTimes) (g : PassengerGroup)
    (w : StageWaits) (d : ServiceDraws) (hw : WaitsNonneg w)
    (hm : MinTimesNonneg st) :
    WellPaired (PassengerProcess_run st g w d).2.1 := by
  obtain ⟨hw1, hw2, hw3, hw4⟩ := hw
  obtain ⟨hm1, hm2, hm3, hm4, hm5⟩ := hm
  have s1 := le_max_right d.checkin st.checkin_kiosk.min_time
  have s2 := le_max_right d.checkin st.checkin_counter.min_time
  have s3 := le_max_right d.baggage st.baggage_counter.min_time
  have s4 := le_max_right d.tag st.tag_kiosk.min_time
  have s5 := le_max_right d.drop st.drop_point.min_time
  cases hct : g.checkin_type <;> cases hbt : g.baggage_drop_type <;>
    · simp only [PassengerProcess_run, ServiceTimeDistribution_sample_one,
        hct, hbt, List.nil_append, List.cons_append, List.append_nil]
      repeat'
        first
        | exact WellPaired.nil
        | refine WellPaired.pair _ _ _ _ _ _ (by linarith) ?_

/-- Counting enters over a cons. -/
theorem countEnter_cons (z : String) (e : TimedEvent) (l : List TimedEvent) :
    countEnter z (e :: l) = countEnter z l + (match e.ev with
      | .enter z' _ _ => if z' == z then 1 else 0
      | .leave _ _ => 0) := by
  rcases e with ⟨t, ev⟩
  cases ev with
  | enter z' gid gs =>
    by_cases h : z' == z <;>
      simp [countEnter, List.filter_cons, h, Nat.add_comm]
  | leave z' gid => simp [countEnter, List.filter_cons]

/-- Counting leaves over a cons. -/
theorem countLeave_cons (z : String) (e : TimedEvent) (l : List TimedEvent) :
    countLeave z (e :: l) = countLeave z l + (match e.ev with
      | .enter _ _ _ => 0
      | .leave z' _ => if z' == z then 1 else 0) := by
  rcases e with ⟨t, ev⟩
  cases ev with
  | enter z' gid gs => simp [countLeave, List.filter_cons]
  | leave z' gid =>
    by_cases h : z' == z <;>
      simp [countLeave, List.filter_cons, h, Nat.add_comm]

/-- Counting enters over an append. -/
theorem countEnter_append (z : String) (l1 l2 : List TimedEvent) :
    countEnter z (l1 ++ l2) = countEnter z l1 + countEnter z l2 := by
  simp [countEnter, List.filter_append]

/-- Counting leaves over an append. -/
theorem countLeave_append (z : String) (l1 l2 : List TimedEvent) :
    countLeave z (l1 ++ l2) = countLeave z l1 + countLeave z l2 := by
  simp [countLeave, List.filter_append]

/-- In any time-prefix of a well-paired event list, leaves never outnumber
enters (a leave executes only if its block's earlier enter also does). -/
theorem wellPaired_filter_le (H : ℚ) (z : String) :
    ∀ {l : List TimedEvent}, WellPaired l →
      countLeave z (l.filter (fun e => decide (e.time < H)))
        ≤ countEnter z (l.filter (fun e => decide (e.time < H))) := by
  intro l hp
  induction hp with
  | nil => simp [countEnter, countLeave]
  | pair z0 gid gs a b rest hab hrest ih =>
    simp only [List.filter_cons]
    by_cases hb : b < H
    · have ha : a < H := lt_of_le_of_lt hab hb
      rw [if_pos (by simpa using ha), if_pos (by simpa using hb)]
      rw [countEnter_cons, countEnter_cons, countLeave_cons, countLeave_cons]
      by_cases hz : z0 == z <;> simp [hz] <;> omega
    · by_cases ha : a < H
      · rw [if_pos (by simpa using ha), if_neg (by simpa using hb)]
        rw [countEnter_cons, countLeave_cons]
        by_cases hz : z0 == z <;> simp [hz] <;> omega
      · rw [if_neg (by simpa using ha), if_neg (by simpa using hb)]
        exact ih

/-- In a complete well-paired event list, enters and leaves balance. -/
theorem wellPaired_counts_eq (z : String) :
    ∀ {l : List TimedEvent}, WellPaired l → countLeave z l = countEnter z l := by
  intro l hp
  induction hp with
  | nil => simp [countEnter, countLeave]
  | pair z0 gid gs a b rest hab hrest ih =>
    rw [countEnter_cons, countEnter_cons, countLeave_cons, countLeave_cons]
    by_cases hz : z0 == z <;> simp [hz] <;> omega

/-- The engine's service-time distributions all use the default floor
`min_time = 1 ≥ 0`. -/
theorem create_service_times_min (cfg : SimulationConfig) :
    MinTimesNonneg (create_service_times cfg) := by
  refine ⟨?_, ?_, ?_, ?_, ?_⟩ <;> norm_num [create_service_times]

/-- Decomposing membership in the completed collection: every completed
record is the processed form of a source group whose completion event fired
strictly before the horizon. -/
theorem mem_collectCompleted (st : ServiceTimes) (waits : ℕ → StageWaits)
    (draws : ℕ → ServiceDraws) (groups : List PassengerGroup) (H : ℚ)
    (g' : PassengerGroup) (hg' : g' ∈ collectCompleted st waits draws groups H) :
    ∃ g ∈ groups,
      g' = (PassengerProcess_run st g (waits g.group_id) (draws g.group_id)).1 ∧
      (PassengerProcess_run st g (waits g.group_id) (draws g.group_id)).2.2 < H := by
  rw [collectCompleted] at hg'
  obtain ⟨x, hx, hxeq⟩ := List.mem_filterMap.mp hg'
  rw [processedGroups] at hx
  obtain ⟨g, hgmem, rfl⟩ := List.mem_map.mp hx
  by_cases h : (PassengerProcess_run st g (waits g.group_id) (draws g.group_id)).2.2 < H
  · rw [if_pos h] at hxeq
    exact ⟨g, hgmem, (Option.some.inj hxeq).symm, h⟩
  · rw [if_neg h] at hxeq
    exact absurd hxeq (by simp)

/-- C9.  Stage-timestamp ordering: for every group record in the engine's
completed collection (arrival groups generated by `generate_all_arrivals`,
processed by `PassengerProcess_run`, collected when completing before the
horizon), each of the four stages satisfies: a set `service_end` implies a
set `service_start` with `service_start ≤ service_end`, and a set
`service_start` implies a set `queue_enter` with
`queue_enter ≤ service_start`. -/
theorem stage_timestamp_ordering (cfg : SimulationConfig) (f : Factory)
    (py tDraws uFracs : ℕ → ℚ) (slots : List DemandSlot)
    (waits : ℕ → StageWaits) (draws : ℕ → ServiceDraws) (horizon : ℚ)
    (hw : ∀ i, WaitsNonneg (waits i)) :
    ∀ g' ∈ collectCompleted (create_service_times cfg) waits draws
        (generate_all_arrivals f (arrivalDist cfg) py tDraws uFracs slots
          ⟨0, 0, 0, 0⟩).1 horizon,
      StageOrderOK g' := by
  intro g' hg'
  obtain ⟨g, hgmem, rfl, _⟩ := mem_collectCompleted _ _ _ _ _ g' hg'
  exact processRun_stage_order _ g _ _ (hw g.group_id)
    (create_service_times_min cfg)
    (generate_all_arrivals_fresh f (arrivalDist cfg) py tDraws uFracs slots
      ⟨0, 0, 0, 0⟩ g hgmem)

set_option maxRecDepth 4000 in
/-- Witness for `stage_timestamp_ordering` at a fully concrete input: the
one group of a one-passenger slot checks in at the kiosk during [0, 60] and
reaches security at 70, well before the 5400 s horizon; its completed
record satisfies the stage ordering. -/
theorem stage_timestamp_ordering_witness :
    StageOrderOK
      { group_id := 0, group_size := 1, arrival_time := 0,
        departure_time := 1800, checkin_type := CheckinType.kiosk,
        has_baggage := false, baggage_drop_type := BaggageDropType.none,
        checkin_queue_enter := Option.some 0, checkin_start := Option.some 0,
        checkin_end := Option.some 60, security_arrival := Option.some 70 } :=
  stage_timestamp_ordering defaultConfig exampleFactory examplePy exampleT
    zeroStream [⟨0, 60, 1⟩] zeroWaits smallDraws 5400
    (fun i => by refine ⟨?_, ?_, ?_, ?_⟩ <;> simp [zeroWaits])
    _ (by with_unfolding_all decide)

/-- C8.  Horizon truncation: with the engine's horizon
`lastDeparture groups + 3600`, every group in the completed collection has
a `security_arrival` strictly before the horizon and an arrival time no
later than it — equivalently, a group whose process does not complete
before the horizon (in particular one arriving after it) never appears;
and the run itself returns a result rather than raising whenever resource
and factory construction succeed. -/
theorem horizon_truncation (cfg : SimulationConfig) (waits : ℕ → StageWaits)
    (draws : ℕ → ServiceDraws) (groups : List PassengerGroup)
    (hw : ∀ i, WaitsNonneg (waits i)) :
    (∀ g' ∈ collectCompleted (create_service_times cfg) waits draws groups
        (lastDeparture groups + 3600),
      ∃ sec, g'.security_arrival = Option.some sec ∧
        sec < lastDeparture groups + 3600 ∧ g'.arrival_time ≤ sec) ∧
    (∀ (py tDraws uFracs : ℕ → ℚ) (slots : List DemandSlot),
      (AirportResources_init cfg).isOk = true →
      (PassengerGroupFactory_init cfg.p_online cfg.p_kiosk cfg.p_counter
        cfg.p_baggage cfg.p_baggage_counter cfg.p_single
        cfg.group_multi_min cfg.group_multi_max).isSome = true →
      (SimulationEngine_run cfg py tDraws uFracs waits draws slots).isOk
        = true) := by
  constructor
  · intro g' hg'
    obtain ⟨g, _, rfl, hlt⟩ := mem_collectCompleted _ _ _ _ _ g' hg'
    have hfields := processRun_fields (create_service_times cfg) g
      (waits g.group_id) (draws g.group_id)
    refine ⟨(PassengerProcess_run (create_service_times cfg) g
      (waits g.group_id) (draws g.group_id)).2.2, hfields.2.2, hlt, ?_⟩
    rw [hfields.2.1]
    exact processRun_arrival_le _ g _ _ (hw g.group_id)
      (create_service_times_min cfg)
  · intro py tDraws uFracs slots hres hfac
    cases hrx : AirportResources_init cfg with
    | error e => rw [hrx] at hres; simp [Except.isOk, Except.toBool] at hres
    | ok l =>
      cases hfx : PassengerGroupFactory_init cfg.p_online cfg.p_kiosk
          cfg.p_counter cfg.p_baggage cfg.p_baggage_counter cfg.p_single
          cfg.group_multi_min cfg.group_multi_max with
      | none => rw [hfx] at hfac; simp at hfac
      | some f =>
        by_cases hemp : ((generate_all_arrivals f (arrivalDist cfg) py tDraws
            uFracs slots ⟨0, 0, 0, 0⟩).1).isEmpty <;>
          simp [SimulationEngine_run, hrx, hfx, hemp, Except.isOk,
            Except.toBool]

/-- Witness for `horizon_truncation` at a concrete input. -/
theorem horizon_truncation_witness :
    (∀ g' ∈ collectCompleted (create_service_times defaultConfig) zeroWaits
        smallDraws [exampleGroup] (lastDeparture [exampleGroup] + 3600),
      ∃ sec, g'.security_arrival = Option.some sec ∧
        sec < lastDeparture [exampleGroup] + 3600 ∧ g'.arrival_time ≤ sec) ∧
    (∀ (py tDraws uFracs : ℕ → ℚ) (slots : List DemandSlot),
      (AirportResources_init defaultConfig).isOk = true →
      (PassengerGroupFactory_init defaultConfig.p_online defaultConfig.p_kiosk
        defaultConfig.p_counter defaultConfig.p_baggage
        defaultConfig.p_baggage_counter defaultConfig.p_single
        defaultConfig.group_multi_min defaultConfig.group_multi_max).isSome
          = true →
      (SimulationEngine_run defaultConfig py tDraws uFracs zeroWaits smallDraws
        slots).isOk = true) :=
  horizon_truncation defaultConfig zeroWaits smallDraws [exampleGroup]
    (fun i => by refine ⟨?_, ?_, ?_, ?_⟩ <;> simp [zeroWaits])

/-- Per-run counting: leaves never outnumber enters among the executed
area calls, with equality when every group completes before the horizon. -/
theorem runAreaEvents_counts (stc : ServiceTimes) (waits : ℕ → StageWaits)
    (draws : ℕ → ServiceDraws) (H : ℚ) (hw : ∀ i, WaitsNonneg (waits i))
    (hm : MinTimesNonneg stc) :
    ∀ groups : List PassengerGroup,
      (∀ z, countLeave z (runAreaEvents stc waits draws groups H)
        ≤ countEnter z (runAreaEvents stc waits draws groups H)) ∧
      ((∀ x ∈ processedGroups stc waits draws groups, x.2.2 < H) →
        ∀ z, countLeave z (runAreaEvents stc waits draws groups H)
          = countEnter z (runAreaEvents stc waits draws groups H)) := by
  intro groups
  induction groups with
  | nil =>
    constructor
    · intro z
      simp [runAreaEvents, processedGroups, countEnter, countLeave]
    · intro _ z
      simp [runAreaEvents, processedGroups, countEnter, countLeave]
  | cons g gs ih =>
    have hsplit : runAreaEvents stc waits draws (g :: gs) H
        = ((PassengerProcess_run stc g (waits g.group_id)
            (draws g.group_id)).2.1.filter (fun e => decide (e.time < H)))
          ++ runAreaEvents stc waits draws gs H := by
      simp [runAreaEvents, processedGroups]
    have hwp := processRun_wellPaired stc g (waits g.group_id)
      (draws g.group_id) (hw g.group_id) hm
    constructor
    · intro z
      rw [hsplit, countEnter_append, countLeave_append]
      have h1 := wellPaired_filter_le H z hwp
      have h2 := (ih.1) z
      omega
    · intro hall z
      rw [hsplit, countEnter_append, countLeave_append]
      have hsec : (PassengerProcess_run stc g (waits g.group_id)
          (draws g.group_id)).2.2 < H :=
        hall _ (by simp [processedGroups])
      have hev : ∀ e ∈ (PassengerProcess_run stc g (waits g.group_id)
          (draws g.group_id)).2.1, decide (e.time < H) = true := by
        intro e he
        have := processRun_times_le stc g (waits g.group_id)
          (draws g.group_id) (hw g.group_id) hm e he
        simpa using lt_of_le_of_lt this hsec
      rw [List.filter_eq_self.mpr hev]
      have htail : ∀ x ∈ processedGroups stc waits draws gs, x.2.2 < H := by
        intro x hx
        apply hall
        rw [processedGroups] at hx ⊢
        exact List.mem_cons_of_mem _ hx
      rw [wellPaired_counts_eq z hwp, (ih.2 htail) z]

/-- C4 (amended).  Area-occupancy balance over a run: for every zone, the
number of executed `leave_area` calls never exceeds the number of executed
`enter_area` calls, with equality whenever every generated group's process
completes before the horizon; and every recorded `AreaOccupancy` snapshot
has a non-negative `group_count` (it is the length of the zone's membership
list).  Horizon truncation can strand a group inside a zone, so exact
enter/leave equality does NOT hold unconditionally — see the
counterexample. -/
theorem area_enter_leave_balance (cfg : SimulationConfig)
    (waits : ℕ → StageWaits) (draws : ℕ → ServiceDraws)
    (groups : List PassengerGroup) (H : ℚ)
    (hw : ∀ i, WaitsNonneg (waits i)) :
    (∀ z, countLeave z (runAreaEvents (create_service_times cfg) waits draws
        groups H)
      ≤ countEnter z (runAreaEvents (create_service_times cfg) waits draws
        groups H)) ∧
    ((∀ x ∈ processedGroups (create_service_times cfg) waits draws groups,
        x.2.2 < H) →
      ∀ z, countLeave z (runAreaEvents (create_service_times cfg) waits draws
          groups H)
        = countEnter z (runAreaEvents (create_service_times cfg) waits draws
          groups H)) ∧
    (∀ σ ∈ areaHistory (sortByKey (fun e => e.time)
        (runAreaEvents (create_service_times cfg) waits draws groups H)),
      0 ≤ σ.group_count) := by
  have h := runAreaEvents_counts (create_service_times cfg) waits draws H hw
    (create_service_times_min cfg) groups
  exact ⟨h.1, h.2, fun σ _ => Nat.zero_le _⟩

/-- Witness for `area_enter_leave_balance` at a concrete input. -/
theorem area_enter_leave_balance_witness :
    (∀ z, countLeave z (runAreaEvents (create_service_times defaultConfig)
        zeroWaits smallDraws [exampleGroup] 5400)
      ≤ countEnter z (runAreaEvents (create_service_times defaultConfig)
        zeroWaits smallDraws [exampleGroup] 5400)) ∧
    ((∀ x ∈ processedGroups (create_service_times defaultConfig) zeroWaits
        smallDraws [exampleGroup], x.2.2 < 5400) →
      ∀ z, countLeave z (runAreaEvents (create_service_times defaultConfig)
          zeroWaits smallDraws [exampleGroup] 5400)
        = countEnter z (runAreaEvents (create_service_times defaultConfig)
          zeroWaits smallDraws [exampleGroup] 5400)) ∧
    (∀ σ ∈ areaHistory (sortByKey (fun e => e.time)
        (runAreaEvents (create_service_times defaultConfig) zeroWaits
          smallDraws [exampleGroup] 5400)),
      0 ≤ σ.group_count) :=
  area_enter_leave_balance defaultConfig zeroWaits smallDraws [exampleGroup]
    5400 (fun i => by refine ⟨?_, ?_, ?_, ?_⟩ <;> simp [zeroWaits])

/-- C4 counterexample.  One slot of one passenger (kiosk check-in, no
baggage, arrival 0, departure 1800 s, horizon 5400 s) whose check-in
service draw is 10000 s: the group enters the check-in zone at time 0 but
its leave call is scheduled at 10000 ≥ 5400, so the run executes 1 enter
and 0 leaves for `checkin_zone` — the run's recorded area history is the
single enter snapshot, and enters ≠ leaves at simulation end. -/
theorem area_enter_leave_imbalance_at_horizon :
    PassengerGroupFactory_init defaultConfig.p_online defaultConfig.p_kiosk
        defaultConfig.p_counter defaultConfig.p_baggage
        defaultConfig.p_baggage_counter defaultConfig.p_single
        defaultConfig.group_multi_min defaultConfig.group_multi_max
      = Option.some exampleFactory ∧
    countEnter "checkin_zone" (runAreaEvents (create_service_times defaultConfig)
      zeroWaits hugeDraws
      (generate_all_arrivals exampleFactory (arrivalDist defaultConfig)
        examplePy exampleT zeroStream [⟨0, 60, 1⟩] ⟨0, 0, 0, 0⟩).1
      (lastDeparture (generate_all_arrivals exampleFactory
        (arrivalDist defaultConfig) examplePy exampleT zeroStream
        [⟨0, 60, 1⟩] ⟨0, 0, 0, 0⟩).1 + 3600)) = 1 ∧
    countLeave "checkin_zone" (runAreaEvents (create_service_times defaultConfig)
      zeroWaits hugeDraws
      (generate_all_arrivals exampleFactory (arrivalDist defaultConfig)
        examplePy exampleT zeroStream [⟨0, 60, 1⟩] ⟨0, 0, 0, 0⟩).1
      (lastDeparture (generate_all_arrivals exampleFactory
        (arrivalDist defaultConfig) examplePy exampleT zeroStream
        [⟨0, 60, 1⟩] ⟨0, 0, 0, 0⟩).1 + 3600)) = 0 ∧
    (match SimulationEngine_run defaultConfig examplePy exampleT zeroStream
        zeroWaits hugeDraws [⟨0, 60, 1⟩] with
      | .ok r => r.area_occupancy_history
      | .error _ => []) = [⟨0, "checkin_zone", 1, 1⟩] ∧
    (1 : ℕ) ≠ 0 := by
  with_unfolding_all decide

/-- C3 counterexample.  `badConfig` carries the out-of-range branching
probability `p_baggage = 3/2`, yet engine construction succeeds and a full
run on a non-empty demand slot returns a result without raising — the
claimed construction-time rejection does not exist. -/
theorem invalid_config_constructs_and_runs :
    (¬ (0 ≤ badConfig.p_baggage ∧ badConfig.p_baggage ≤ 1)) ∧
    (SimulationEngine_init badConfig).isOk = true ∧
    (SimulationEngine_run badConfig examplePy exampleT zeroStream zeroWaits
      smallDraws [⟨0, 60, 1⟩]).isOk = true := by
  with_unfolding_all decide

/-- C3 (amended).  No validation happens at construction:
`SimulationEngine.__init__` always succeeds, whatever the probabilities or
capacities; the only configuration-dependent failures happen inside `run` —
building the group factory fails (ZeroDivisionError) exactly when the
check-in split sums to 0, and creating the `simpy` resources fails exactly
when every station capacity being positive is violated. -/
theorem construction_performs_no_validation :
    (∀ cfg : SimulationConfig, (SimulationEngine_init cfg).isOk = true) ∧
    (∀ (po pk pc pb pbc ps : ℚ) (mn mx : ℕ),
      (PassengerGroupFactory_init po pk pc pb pbc ps mn mx).isSome = true
        ↔ po + pk + pc ≠ 0) ∧
    (∀ cfg : SimulationConfig, (AirportResources_init cfg).isOk = true ↔
      (0 < cfg.capacity_checkin_kiosk ∧ 0 < cfg.capacity_checkin_counter ∧
       0 < cfg.capacity_baggage_counter ∧ 0 < cfg.capacity_tag_kiosk ∧
       0 < cfg.capacity_drop_point)) := by
  refine ⟨fun cfg => rfl, ?_, ?_⟩
  · intro po pk pc pb pbc ps mn mx
    rw [PassengerGroupFactory_init]
    by_cases h : po + pk + pc = 0 <;> simp [h]
  · intro cfg
    by_cases h : ((stationCapacities cfg).all (fun nc => decide (0 < nc.2))) = true
    · rw [AirportResources_init, if_pos h]
      simp only [stationCapacities, List.all_cons, List.all_nil,
        Bool.and_eq_true, decide_eq_true_eq] at h
      simp only [Except.isOk, Except.toBool, true_iff]
      tauto
    · rw [AirportResources_init, if_neg h]
      simp only [stationCapacities, List.all_cons, List.all_nil,
        Bool.and_eq_true, decide_eq_true_eq] at h
      simp only [Except.isOk, Except.toBool, false_iff]
      tauto

/-- Skipping every degenerate slot leaves the arrival accumulator empty. -/
theorem generate_all_arrivals_nil (f : Factory) (ad : TruncatedTDistribution)
    (py tDraws uFracs : ℕ → ℚ) (slots : List DemandSlot) (st : GenState)
    (hslots : ∀ s ∈ slots, s.pax_count ≤ 0) :
    generate_all_arrivals f ad py tDraws uFracs slots st = ([], st) := by
  have aux : ∀ (slots : List DemandSlot) (acc : List PassengerGroup × GenState),
      (∀ s ∈ slots, s.pax_count ≤ 0) →
      slots.foldl
        (fun (acc : List PassengerGroup × GenState) slot =>
          if 0 < slot.pax_count then
            let gen := generate_arrivals_for_slot f ad py tDraws uFracs slot acc.2
            (acc.1 ++ gen.1, gen.2)
          else acc)
        acc = acc := by
    intro slots
    induction slots with
    | nil => intro acc _; rfl
    | cons s rest ih =>
      intro acc hs
      simp only [List.foldl_cons]
      rw [if_neg (by have := hs s (by simp); omega)]
      exact ih acc (fun x hx => hs x (List.mem_cons_of_mem s hx))
  rw [generate_all_arrivals, aux slots ([], st) hslots]
  rfl

/-- C10.  Degenerate demand: when every slot has `pax_count ≤ 0` (in
particular for an empty slot list), `run` returns the early-exit
`SimulationResult` — no completed groups, an EMPTY queue-history dictionary
(no per-station keys), empty area history, no position snapshots, and
`simulation_duration_sec = 0` — without starting the event loop; a normal
run's queue-history dictionary, by contrast, always carries exactly the
five station keys. -/
theorem empty_demand_early_return (cfg : SimulationConfig)
    (py tDraws uFracs : ℕ → ℚ) (waits : ℕ → StageWaits)
    (draws : ℕ → ServiceDraws) (slots : List DemandSlot)
    (hres : (AirportResources_init cfg).isOk = true)
    (hfac : (PassengerGroupFactory_init cfg.p_online cfg.p_kiosk cfg.p_counter
      cfg.p_baggage cfg.p_baggage_counter cfg.p_single
      cfg.group_multi_min cfg.group_multi_max).isSome = true)
    (hslots : ∀ s ∈ slots, s.pax_count ≤ 0) :
    SimulationEngine_run cfg py tDraws uFracs waits draws slots
      = .ok ⟨cfg, [], [], [], [], 0⟩ ∧
    (∀ (gs : List PassengerGroup) (H : ℚ),
      (queueHistories cfg (create_service_times cfg) waits draws gs H).map
          Prod.fst
        = ["checkin_kiosk", "checkin_counter", "baggage_counter",
           "tag_kiosk", "drop_point"]) := by
  constructor
  · cases hrx : AirportResources_init cfg with
    | error e => rw [hrx] at hres; simp [Except.isOk, Except.toBool] at hres
    | ok l =>
      cases hfx : PassengerGroupFactory_init cfg.p_online cfg.p_kiosk
          cfg.p_counter cfg.p_baggage cfg.p_baggage_counter cfg.p_single
          cfg.group_multi_min cfg.group_multi_max with
      | none => rw [hfx] at hfac; simp at hfac
      | some f =>
        simp only [SimulationEngine_run, hrx, hfx,
          generate_all_arrivals_nil f (arrivalDist cfg) py tDraws uFracs
            slots ⟨0, 0, 0, 0⟩ hslots]
        rfl
  · intro gs H
    simp [queueHistories, stationCapacities]

/-- Witness for `empty_demand_early_return`: the default configuration and
one zero-demand slot. -/
theorem empty_demand_early_return_witness :
    SimulationEngine_run defaultConfig examplePy exampleT zeroStream zeroWaits
        smallDraws [⟨0, 60, 0⟩]
      = .ok ⟨defaultConfig, [], [], [], [], 0⟩ ∧
    (∀ (gs : List PassengerGroup) (H : ℚ),
      (queueHistories defaultConfig (create_service_times defaultConfig)
          zeroWaits smallDraws gs H).map Prod.fst
        = ["checkin_kiosk", "checkin_counter", "baggage_counter",
           "tag_kiosk", "drop_point"]) :=
  empty_demand_early_return defaultConfig examplePy exampleT zeroStream
    zeroWaits smallDraws [⟨0, 60, 0⟩] (by with_unfolding_all decide)
    (by with_unfolding_all decide) (by with_unfolding_all decide)

/-- C1.  Deterministic replay is broken: `SimulationEngine.run` seeds only
numpy's generator (`np.random.seed`), while
`PassengerGroupFactory.create_group` draws group size, check-in type and
baggage choices from Python's stdlib `random` module, which is never
seeded.  The two streams below are both legal states of that unseeded
global generator; with the identical (seed-determined) factory and
identical arrival data they produce groups of different sizes — the ambient
unseeded state, not the configured seed, decides the output, so two runs
with the same `random_seed` need not produce identical `completed_groups`
timestamps or histories. -/
theorem run_output_depends_on_unseeded_python_rng :
    ((PassengerGroupFactory_init defaultConfig.p_online defaultConfig.p_kiosk
        defaultConfig.p_counter defaultConfig.p_baggage
        defaultConfig.p_baggage_counter defaultConfig.p_single
        defaultConfig.group_multi_min defaultConfig.group_multi_max).map
      (fun f => (create_group f zeroStream 0 0 0 1800).1.group_size))
        = Option.some 1 ∧
    ((PassengerGroupFactory_init defaultConfig.p_online defaultConfig.p_kiosk
        defaultConfig.p_counter defaultConfig.p_baggage
        defaultConfig.p_baggage_counter defaultConfig.p_single
        defaultConfig.group_multi_min defaultConfig.group_multi_max).map
      (fun f => (create_group f (fun _ => 4/5) 0 0 0 1800).1.group_size))
        = Option.some 4 ∧
    (1 : ℕ) ≠ 4 := by
  with_unfolding_all decide

end AirportSim
